import Mathlib

/-!
# Task completion reconciler (k8s/informers/task/reconciler.go)

A shallow embedding of the task reconciler of eirini and the properties of its
report / expire / delete bookkeeping.

Modelling conventions

* Go `int` and `time.Duration` are 64 bit signed integers: they are values of
  `GoInt`, an integer together with its range, and arithmetic wraps.
* A Go map is a function from keys to optional values, `none` meaning that the
  key has no entry. Indexing a map at a missing key gives the zero value.
* The collaborators of the reconciler (pod client, jobs client, reporter,
  deleter, clock) are outside of the program. One `Collaborators` value fixes
  what each of them answers during one `Reconcile` invocation; every invocation
  gets its own value, so their answers may change arbitrarily over time.
* Every call to a collaborator is recorded, in order, in a list of `Call`s.
* Collaborators do not modify the pod they are handed, and invocations on one
  reconciler run one after the other.
* Logging has no effect on the result and is left out.
* A nil pointer dereference is a result of its own (`none`), not an error value.
-/

namespace Eirini

/-! ## Machine integers -/

/-- Go `int` / `int64` on a 64 bit platform: an integer within the signed range. -/
abbrev GoInt : Type :=
  { i : Int // -9223372036854775808 ≤ i ∧ i ≤ 9223372036854775807 }

/-- Two's complement wrap-around of an integer into the 64 bit signed range. -/
def wrapInt64 (i : Int) : GoInt :=
  ⟨(i + 9223372036854775808) % 18446744073709551616 - 9223372036854775808, by omega⟩

instance : Zero GoInt := ⟨⟨0, by omega⟩⟩

/-- Go `a + b` on `int64`. -/
def GoInt.add (a b : GoInt) : GoInt := wrapInt64 (a.val + b.val)

/-- Go `a * b` on `int64`. -/
def GoInt.mul (a b : GoInt) : GoInt := wrapInt64 (a.val * b.val)

/-- Go unary minus on `int64`. -/
def GoInt.neg (a : GoInt) : GoInt := wrapInt64 (-a.val)

/-! ## Go maps -/

/-- A Go map keyed by strings. -/
abbrev GoMap (V : Type) : Type := String → Option V

/-- The map literal `map[string]V{}`. -/
def GoMap.empty {V : Type} : GoMap V := fun _ => none

/-- Map indexing `m[k]`: the zero value when the key is absent. -/
def GoMap.index {V : Type} (m : GoMap V) (zero : V) (k : String) : V := (m k).getD zero

/-- Map assignment `m[k] = v`. -/
def GoMap.set {V : Type} (m : GoMap V) (k : String) (v : V) : GoMap V :=
  fun k' => if k' = k then some v else m k'

/-- The builtin `delete(m, k)`. -/
def GoMap.delete {V : Type} (m : GoMap V) (k : String) : GoMap V :=
  fun k' => if k' = k then none else m k'

/-! ## Kubernetes and controller-runtime data -/

/-- An `error` value. `notFound` is what `apierrors.IsNotFound` answers on it. -/
structure Error where
  msg : String
  notFound : Bool
deriving DecidableEq

/-- An instant (`time.Time`, `metav1.Time`), in nanoseconds since the epoch. -/
abbrev Time : Type := Int

/-- A `time.Duration`, a 64 bit count of nanoseconds. -/
abbrev Duration : Type := GoInt

/-- The constant `time.Second`. -/
def Second : Duration := ⟨1000000000, by omega⟩

/-- `time.Time.Add`. -/
def Time.Add (t : Time) (d : Duration) : Time := t + d.val

/-- `time.Time.Before`. -/
def Time.Before (t u : Time) : Bool := decide (t < u)

/-- `corev1.ContainerStateTerminated`, the field the reconciler reads. -/
structure ContainerStateTerminated where
  FinishedAt : Time
deriving DecidableEq

/-- `corev1.ContainerState`; `Terminated` is a pointer, `none` is nil. -/
structure ContainerState where
  Terminated : Option ContainerStateTerminated
deriving DecidableEq

/-- `corev1.ContainerStatus`. -/
structure ContainerStatus where
  Name : String
  State : ContainerState
deriving DecidableEq

/-- `corev1.Pod`, restricted to what the reconciler reads. Labels are a list of
key/value pairs, the first pair of a key being its entry. -/
structure Pod where
  Namespace : String
  Name : String
  Labels : List (String × String)
  ContainerStatuses : List ContainerStatus
deriving DecidableEq

/-- Label lookup `pod.Labels[key]`: the empty string when the label is absent. -/
def Pod.label (pod : Pod) (key : String) : String := (pod.Labels.lookup key).getD ""

/-- `batchv1.Job`; the reconciler only counts jobs. -/
structure Job where
  Name : String
deriving DecidableEq

/-- `reconcile.Request`. -/
structure Request where
  Namespace : String
  Name : String
deriving DecidableEq

/-- `reconcile.Result`. -/
structure Result where
  Requeue : Bool
  RequeueAfter : Duration
deriving DecidableEq

/-- The zero value `reconcile.Result{}`: no requeue. -/
def Result.empty : Result := ⟨false, 0⟩

/-! ## Collaborators and their calls -/

/-- What the collaborators of the reconciler answer during one invocation. -/
structure Collaborators where
  /-- `r.pods.Get(ctx, request.NamespacedName, pod)` -/
  Get : Request → Except Error Pod
  /-- `r.jobs.GetByGUID(guid)` -/
  GetByGUID : String → Except Error (List Job)
  /-- `r.reporter.Report(pod)`, `none` being a nil error -/
  Report : Pod → Option Error
  /-- `r.deleter.Delete(guid)` -/
  Delete : String → String × Option Error
  /-- `time.Now()` -/
  Now : Time

/-- A recorded call to a collaborator, with the error it returned where the
reconciler branches on it. -/
inductive Call where
  | Get (request : Request)
  | GetByGUID (guid : String)
  | Report (pod : Pod) (err : Option Error)
  | Delete (guid : String) (err : Option Error)
deriving DecidableEq

/-- Modelled from the spec: the constant `k8s.LabelGUID`, declared outside of the
sources at hand, is the label that carries the task GUID. -/
def LabelGUID : String := "cloudfoundry.org/guid"

/-- Modelled from the spec: the constant `OPIContainerName`, declared outside of
the sources at hand, is the designated task container name. -/
def OPIContainerName : String := "opi"

/-- Modelled from the spec: `getTaskContainerStatus`, declared outside of the
sources at hand, locates within the container statuses reported by the pod the
entry matching the designated task container name, and tells whether there is
one. -/
def getTaskContainerStatus (pod : Pod) : Option ContainerStatus :=
  pod.ContainerStatuses.find? (fun status => status.Name == OPIContainerName)

/-! ## The reconciler -/

/-- The `Reconciler` struct: configuration and the two tracking maps. The maps
are shared by every copy of the struct, so a method with a value receiver
updates them all the same. -/
structure Reconciler where
  callbackRetryLimit : GoInt
  callbackRetries : GoMap GoInt
  reported : GoMap Bool
  ttlSeconds : GoInt

/-- `NewReconciler`: both maps start empty. -/
def NewReconciler (callbackRetryLimit ttlSeconds : GoInt) : Reconciler :=
  ⟨callbackRetryLimit, GoMap.empty, GoMap.empty, ttlSeconds⟩

/-- `Reconciler.taskContainerHasTerminated`. -/
def taskContainerHasTerminated (pod : Pod) : Bool :=
  match getTaskContainerStatus pod with
  | none => false
  | some status => status.State.Terminated.isSome

/-- `Reconciler.taskHasExpired`; `none` is the nil pointer dereference of
`status.State.Terminated.FinishedAt` on a status that has not terminated. -/
def taskHasExpired (r : Reconciler) (now : Time) (pod : Pod) : Option Bool :=
  match getTaskContainerStatus pod with
  | none => some false
  | some status =>
    let ttlExpire := Time.Add now (GoInt.mul (GoInt.neg r.ttlSeconds) Second)
    match status.State.Terminated with
    | none => none
    | some terminated => some (Time.Before terminated.FinishedAt ttlExpire)

/-- `Reconciler.reportIfRequired`: the updated reconciler, the calls made and the
returned error. -/
def reportIfRequired (r : Reconciler) (c : Collaborators) (pod : Pod) :
    Reconciler × List Call × Option Error :=
  let guid := pod.label LabelGUID
  if !(r.reported.index false guid) &&
      decide ((r.callbackRetries.index 0 guid).val < r.callbackRetryLimit.val) then
    match c.Report pod with
    | some err =>
      ({ r with callbackRetries :=
            r.callbackRetries.set guid (GoInt.add (r.callbackRetries.index 0 guid) ⟨1, by omega⟩) },
        [Call.Report pod (some err)], some err)
    | none =>
      ({ r with reported := r.reported.set guid true }, [Call.Report pod none], none)
  else
    (r, [], none)

/-- What one `Reconcile` invocation leaves behind. -/
structure Outcome where
  /-- the reconciler after the invocation -/
  self : Reconciler
  /-- the calls made to collaborators, in order -/
  calls : List Call
  /-- the returned pair, or `none` for a nil pointer dereference -/
  ret : Option (Result × Option Error)

/-- `Reconciler.Reconcile`. -/
def Reconcile (r : Reconciler) (c : Collaborators) (request : Request) : Outcome :=
  match c.Get request with
  | .error err =>
    if err.notFound then
      ⟨r, [Call.Get request], some (Result.empty, none)⟩
    else
      ⟨r, [Call.Get request], some (Result.empty, some err)⟩
  | .ok pod =>
    if !(taskContainerHasTerminated pod) then
      ⟨r, [Call.Get request], some (Result.empty, none)⟩
    else
      let guid := pod.label LabelGUID
      match c.GetByGUID guid with
      | .error err =>
        ⟨r, [Call.Get request, Call.GetByGUID guid], some (Result.empty, some err)⟩
      | .ok jobsForPods =>
        if jobsForPods.length == 0 then
          ⟨r, [Call.Get request, Call.GetByGUID guid], some (Result.empty, none)⟩
        else
          match reportIfRequired r c pod with
          | (r1, reportCalls, some err) =>
            ⟨r1, [Call.Get request, Call.GetByGUID guid] ++ reportCalls,
              some (Result.empty, some err)⟩
          | (r1, reportCalls, none) =>
            match taskHasExpired r1 c.Now pod with
            | none => ⟨r1, [Call.Get request, Call.GetByGUID guid] ++ reportCalls, none⟩
            | some false =>
              ⟨r1, [Call.Get request, Call.GetByGUID guid] ++ reportCalls,
                some (⟨false, GoInt.mul r1.ttlSeconds Second⟩, none)⟩
            | some true =>
              let r2 : Reconciler :=
                { r1 with callbackRetries := r1.callbackRetries.delete guid }
              let err := (c.Delete guid).2
              let r3 : Reconciler :=
                if err = none then { r2 with reported := r2.reported.delete guid } else r2
              ⟨r3, [Call.Get request, Call.GetByGUID guid] ++ reportCalls ++ [Call.Delete guid err],
                some (Result.empty, err)⟩

/-- A sequence of `Reconcile` invocations on one reconciler, each with the
answers its collaborators give at that moment: the final reconciler and all
calls made, in order. -/
def reconcileAll (r : Reconciler) : List (Collaborators × Request) → Reconciler × List Call
  | [] => (r, [])
  | (c, request) :: rest =>
    let o := Reconcile r c request
    let (r', calls) := reconcileAll o.self rest
    (r', o.calls ++ calls)

/-! ## Auxiliary definitions used by the statements -/

/-- The reconciler once the deletion step has run on `guid` with outcome `err`. -/
def afterDelete (r : Reconciler) (guid : String) (err : Option Error) : Reconciler :=
  ⟨r.callbackRetryLimit, r.callbackRetries.delete guid,
    if err = none then r.reported.delete guid else r.reported, r.ttlSeconds⟩

/-- The reported flag of `guid` as the calls alone determine it: set by a
successful report for that GUID, unset by a successful deletion of it. -/
def reportedStep (guid : String) (flag : Bool) : Call → Bool
  | Call.Report pod none => if pod.label LabelGUID = guid then true else flag
  | Call.Delete deleted none => if deleted = guid then false else flag
  | _ => flag

/-- Every report for `guid` among the calls is made while the flag of `guid`,
starting at `flag` and followed along the calls, is unset. -/
def reportsGuarded (guid : String) : Bool → List Call → Prop
  | _, [] => True
  | flag, call :: rest =>
    (∀ pod err, call = Call.Report pod err → pod.label LabelGUID = guid → flag = false) ∧
      reportsGuarded guid (reportedStep guid flag call) rest

/-- Whether a call is a call to `Deleter.Delete`. -/
def Call.isDelete : Call → Bool
  | Call.Delete _ _ => true
  | _ => false

/-- Whether a call is a call to `Reporter.Report`. -/
def Call.isReport : Call → Bool
  | Call.Report _ _ => true
  | _ => false

/-! ## Example data -/

/-- A pod of task `guid-1` whose task container finished at instant 1000. -/
def finishedPod : Pod :=
  ⟨"ns", "task-pod", [(LabelGUID, "guid-1")], [⟨OPIContainerName, ⟨some ⟨1000⟩⟩⟩]⟩

/-- The request for `finishedPod`. -/
def finishedRequest : Request := ⟨"ns", "task-pod"⟩

/-- An error that is not a not-found error. -/
def boom : Error := ⟨"boom", false⟩

/-- Collaborators at instant `now`: the pod and one job exist, the reporter
answers `report` and the deleter answers `delete`. -/
def world (now : Time) (report delete : Option Error) : Collaborators :=
  ⟨fun _ => .ok finishedPod, fun _ => .ok [⟨"task-job"⟩], fun _ => report,
    fun _ => ("task-job", delete), now⟩

/-- A reconciler with retry limit 1 and a TTL of one second. -/
def limitOne : Reconciler := NewReconciler ⟨1, by omega⟩ ⟨1, by omega⟩

/-- A reconciler with retry limit 3 and a TTL of one second. -/
def limitThree : Reconciler := NewReconciler ⟨3, by omega⟩ ⟨1, by omega⟩

/-- A pod of task `guid-1` whose task container is still running. -/
def runningPod : Pod :=
  ⟨"ns", "task-pod", [(LabelGUID, "guid-1")], [⟨OPIContainerName, ⟨none⟩⟩]⟩

/-- Collaborators that find `runningPod`. -/
def runningWorld : Collaborators :=
  ⟨fun _ => .ok runningPod, fun _ => .ok [⟨"task-job"⟩], fun _ => none,
    fun _ => ("task-job", none), 5000⟩

/-- Collaborators whose pod client knows no such pod. -/
def goneWorld : Collaborators :=
  ⟨fun _ => .error ⟨"pods \"task-pod\" not found", true⟩, fun _ => .ok [], fun _ => none,
    fun _ => ("", none), 5000⟩

/-- A reconciler with a TTL of ten billion seconds, more than a `time.Duration`
can hold. -/
def hugeTTL : Reconciler := NewReconciler ⟨3, by omega⟩ ⟨10000000000, by omega⟩

/-- A reconciler with a TTL of minus ten billion seconds. -/
def hugeNegativeTTL : Reconciler := NewReconciler ⟨3, by omega⟩ ⟨-10000000000, by omega⟩

/-! ## Admission webhook (k8s/webhook/instance_index_injector.go)

The decoder, `json.Marshal` and `admission.PatchResponseFromRaw` are outside of
the program: a `Library` value fixes what they answer, and the calls made to
them are recorded in order. -/

namespace Webhook

/-- `corev1.EnvVar`; `ValueFrom` is a pointer, `none` is nil. -/
structure EnvVar where
  Name : String
  Value : String
  ValueFrom : Option String
deriving DecidableEq

/-- `corev1.Container`: its name, its environment, and `Other` for all of its
remaining fields, which the injector neither reads nor writes. -/
structure Container where
  Name : String
  Env : List EnvVar
  Other : String
deriving DecidableEq

/-- `corev1.Pod` as the webhook sees it: metadata name and namespace, the
containers of the spec, and `Other` for all remaining fields. -/
structure Pod where
  Name : String
  Namespace : String
  Containers : List Container
  Other : String
deriving DecidableEq

/-- `errors.New`. -/
def errorsNew (message : String) : Error := ⟨message, false⟩

/-- `exterrors.Wrap`: the message is put in front of the one of the cause. -/
def Wrap (err : Error) (message : String) : Error := ⟨message ++ ": " ++ err.msg, err.notFound⟩

/-- `strconv.Itoa`: the base 10 text of an integer. -/
def Itoa (i : GoInt) : String := toString i.val

/-- Modelled from the spec: the constant `eirini.EnvCFInstanceIndex`, declared
outside of the sources at hand, is the name of the instance-index variable; the
test of the webhook expects `CF_INSTANCE_INDEX`. -/
def EnvCFInstanceIndex : String := "CF_INSTANCE_INDEX"

/-- The substring after the final dash of a name, `none` when the name has no
dash. -/
def afterFinalDash : List Char → Option (List Char)
  | [] => none
  | ch :: rest =>
    match afterFinalDash rest with
    | some suffix => some suffix
    | none => if ch = '-' then some rest else none

/-- The number a run of decimal digits denotes. -/
def digitsValue (digits : List Char) : Nat :=
  digits.foldl (fun acc ch => acc * 10 + (ch.toNat - 48)) 0

/-- Modelled from the spec: `util.ParseAppIndex`, declared outside of the sources
at hand, parses an instance ordinal from the substring after the final dash of
the pod name. Parsing fails when the name has no dash, the suffix is empty, or
the suffix is non-numeric. Numeric is taken as a non-empty run of decimal digits
whose value fits the Go `int` that `injectInstanceIndex` hands to
`strconv.Itoa`. The messages are the ones the test of the webhook looks for. -/
def ParseAppIndex (podName : String) : Except Error GoInt :=
  match afterFinalDash podName.data with
  | none => .error (errorsNew "could not parse app name")
  | some suffix =>
    if h : suffix ≠ [] ∧ suffix.all Char.isDigit = true ∧
        (digitsValue suffix : Int) ≤ 9223372036854775807 then
      .ok ⟨(digitsValue suffix : Int), by omega⟩
    else
      .error (errorsNew ("pod " ++ podName ++ " name does not contain an index"))

/-- The loop of `injectInstanceIndex` over `pod.Spec.Containers`: the first
container named `OPIContainerName` gets `cfInstanceVar` appended to its
environment; `none` when the loop ends without finding one. -/
def injectContainers (cfInstanceVar : EnvVar) : List Container → Option (List Container)
  | [] => none
  | container :: rest =>
    if container.Name = OPIContainerName then
      some (⟨container.Name, container.Env ++ [cfInstanceVar], container.Other⟩ :: rest)
    else
      (injectContainers cfInstanceVar rest).map (fun done => container :: done)

/-- The function `injectInstanceIndex`: the pod after the update in place, or
the returned error. -/
def injectInstanceIndex (pod : Pod) : Except Error Pod :=
  match ParseAppIndex pod.Name with
  | .error err => .error (Wrap err "failed to parse app index")
  | .ok index =>
    match injectContainers ⟨EnvCFInstanceIndex, Itoa index, none⟩ pod.Containers with
    | some containers => .ok ⟨pod.Name, pod.Namespace, containers, pod.Other⟩
    | none => .error (errorsNew "no opi container found in pod")

/-- `metav1.Status`, the fields an admission response sets. -/
structure Status where
  Code : Int
  Reason : String
  Message : String
deriving DecidableEq

/-- `jsonpatch.Operation`. -/
structure JSONPatchOperation where
  Operation : String
  Path : String
  Value : String
deriving DecidableEq

/-- `admission.Response`; `Result` is a pointer, `none` is nil. -/
structure Response where
  Allowed : Bool
  Result : Option Status
  Patches : List JSONPatchOperation
deriving DecidableEq

/-- `admission.Request`: the operation and the raw object. -/
structure AdmissionRequest where
  Operation : String
  Raw : String
deriving DecidableEq

/-- The constant `v1beta1.Create`. -/
def Create : String := "CREATE"

/-- `admission.Allowed` of controller-runtime: an allowed response with status
200 and the given reason, without patches. -/
def admission.Allowed (reason : String) : Response := ⟨true, some ⟨200, reason, ""⟩, []⟩

/-- `admission.Errored` of controller-runtime: a denied response with the given
status code and the message of the error, without patches. -/
def admission.Errored (code : Int) (err : Error) : Response :=
  ⟨false, some ⟨code, "", err.msg⟩, []⟩

/-- What the libraries used by `Handle` answer. -/
structure Library where
  /-- `i.decoder.Decode(req, pod)` -/
  Decode : AdmissionRequest → Except Error Pod
  /-- `json.Marshal(podCopy)` -/
  Marshal : Pod → Except Error String
  /-- `admission.PatchResponseFromRaw(req.Object.Raw, marshaledPod)` -/
  PatchResponseFromRaw : String → String → Response

/-- A recorded call to a library. -/
inductive LibraryCall where
  | Decode (req : AdmissionRequest)
  | Marshal (pod : Pod)
  | PatchResponseFromRaw (original current : String)
deriving DecidableEq

/-- `InstanceIndexEnvInjector.Handle`: the response and the library calls made.
`pod.DeepCopy()` is the pod itself, values being immutable here. -/
def Handle (lib : Library) (req : AdmissionRequest) : Response × List LibraryCall :=
  if req.Operation ≠ Create then
    (admission.Allowed "pod was already created", [])
  else
    match lib.Decode req with
    | .error err => (admission.Errored 400 err, [LibraryCall.Decode req])
    | .ok pod =>
      match injectInstanceIndex pod with
      | .error err => (admission.Errored 400 err, [LibraryCall.Decode req])
      | .ok podCopy =>
        match lib.Marshal podCopy with
        | .error err =>
          (admission.Errored 500 err, [LibraryCall.Decode req, LibraryCall.Marshal podCopy])
        | .ok marshaledPod =>
          (lib.PatchResponseFromRaw req.Raw marshaledPod,
            [LibraryCall.Decode req, LibraryCall.Marshal podCopy,
              LibraryCall.PatchResponseFromRaw req.Raw marshaledPod])

/-- The pod of the test of the webhook, under a given name. -/
def testPod (name : String) : Pod :=
  ⟨name, "", [⟨"opi", [⟨"FOO", "foo", none⟩, ⟨"BAR", "bar", none⟩], ""⟩], ""⟩

/-- Libraries whose decoder finds `pod` in every request and whose patch
response carries no patches. -/
def testLibrary (pod : Pod) : Library :=
  ⟨fun _ => .ok pod, fun _ => .ok "", fun _ _ => ⟨true, none, []⟩⟩

/-- Libraries whose decoder fails on every request. -/
def brokenLibrary : Library :=
  ⟨fun _ => .error (errorsNew "there is no content to decode"), fun _ => .ok "",
    fun _ _ => ⟨true, none, []⟩⟩

end Webhook

/-! ## Task desirer

The desirer itself is not among the sources at hand, only its test
(k8s/desiretask_test.go) is: what follows is written from the spec, and covers
the naming of the workload and its deletion. The job client is outside of the
program: a `JobClient` value fixes what it answers, and the calls made to it
are recorded in order. -/

namespace Desirer

/-- Modelled from the spec: the `opi.Task`, a one-shot unit of work identified
by a GUID, with the identity fields the naming rule reads. -/
structure Task where
  GUID : String
  AppName : String
  SpaceName : String
  Image : String
deriving DecidableEq

/-- Modelled from the spec: the `opi.StagingTask` wraps a Task plus three
container images. -/
structure StagingTask where
  Task : Task
  DownloaderImage : String
  ExecutorImage : String
  UploaderImage : String
deriving DecidableEq

/-- Modelled from the spec: the workload resource, with its generated-name
prefix and the name the orchestrator gave it. -/
structure Job where
  GenerateName : String
  Name : String
deriving DecidableEq

/-- What the job client answers: `create(spec)`, `delete(name)` and
`list(labelSelector)`. -/
structure JobClient where
  Create : Job → Except Error Job
  Delete : String → Option Error
  List : String → Except Error (List Job)

/-- A recorded call to the job client. -/
inductive JobCall where
  | Create (job : Job)
  | Delete (name : String)
  | List (labelSelector : String)
deriving DecidableEq

/-- Modelled from the spec: the constant `LabelStagingGUID`, declared outside of
the sources at hand, is the label that carries the task GUID of a staging
workload. -/
def LabelStagingGUID : String := "cloudfoundry.org/staging_guid"

/-- Modelled from the spec: the name is generated with prefix
`<AppName>-<SpaceName>-` if both are non-empty; otherwise the prefix is
`<GUID>-`. -/
def namePrefix (task : Task) : String :=
  if task.AppName ≠ "" ∧ task.SpaceName ≠ "" then
    task.AppName ++ "-" ++ task.SpaceName ++ "-"
  else
    task.GUID ++ "-"

/-- Modelled from the spec: `TaskDesirer.Desire` builds one workload resource,
creates it through the job client and returns the creation error unchanged. Of
the resource only the generated name is kept. -/
def Desire (client : JobClient) (task : Task) : List JobCall × Option Error :=
  let job : Job := ⟨namePrefix task, ""⟩
  match client.Create job with
  | .error err => ([JobCall.Create job], some err)
  | .ok _ => ([JobCall.Create job], none)

/-- Modelled from the spec: `TaskDesirer.DesireStaging` builds one workload with
the same naming-prefix fallback rule as `Desire` and creates it through the job
client. Of the resource only the generated name is kept. -/
def DesireStaging (client : JobClient) (stagingTask : StagingTask) :
    List JobCall × Option Error :=
  let job : Job := ⟨namePrefix stagingTask.Task, ""⟩
  match client.Create job with
  | .error err => ([JobCall.Create job], some err)
  | .ok _ => ([JobCall.Create job], none)

/-- Modelled from the spec: `TaskDesirer.Delete` lists workloads by the
staging-GUID label selector and requires exactly one match; zero matches or
more than one is an error reporting the GUID and the observed count; otherwise
it deletes the single matched resource by its generated name. Listing failures
and deletion failures propagate verbatim. The text of the count error is the
one the test expects. -/
def Delete (client : JobClient) (guid : String) : List JobCall × Option Error :=
  let labelSelector := LabelStagingGUID ++ "=" ++ guid
  match client.List labelSelector with
  | .error err => ([JobCall.List labelSelector], some err)
  | .ok jobs =>
    match jobs with
    | [job] =>
      ([JobCall.List labelSelector, JobCall.Delete job.Name], client.Delete job.Name)
    | _ =>
      ([JobCall.List labelSelector],
        some ⟨"job with guid " ++ guid ++ " should have 1 instance, but it has: " ++
          toString jobs.length, false⟩)

/-- The task of the test of the desirer. -/
def testTask : Task := ⟨"task-123", "my-app", "my-space", "docker.png"⟩

/-- The task of the test with empty application and space names. -/
def namelessTask : Task := ⟨"task-123", "", "", "docker.png"⟩

/-- A job client that lists `jobs`, and whose deletions answer `deleted`. -/
def testClient (jobs : List Job) (deleted : Option Error) : JobClient :=
  ⟨fun job => .ok job, fun _ => deleted, fun _ => .ok jobs⟩

/-- A job client whose listing fails. -/
def failingClient : JobClient :=
  ⟨fun job => .ok job, fun _ => none, fun _ => .error ⟨"failed to list jobs", false⟩⟩

end Desirer

/-! ## Basic facts -/

theorem wrapInt64_val_of_inRange (i : Int)
    (h : -9223372036854775808 ≤ i ∧ i ≤ 9223372036854775807) : (wrapInt64 i).val = i := by
  simp only [wrapInt64]
  omega

theorem reportIfRequired_skip (r : Reconciler) (c : Collaborators) (pod : Pod)
    (h : ¬ (r.reported.index false (pod.label LabelGUID) = false ∧
      (r.callbackRetries.index 0 (pod.label LabelGUID)).val < r.callbackRetryLimit.val)) :
    reportIfRequired r c pod = (r, [], none) := by
  unfold reportIfRequired
  simp only []
  rw [if_neg]
  simpa using h

theorem reportIfRequired_failure (r : Reconciler) (c : Collaborators) (pod : Pod) (e : Error)
    (hrep : r.reported.index false (pod.label LabelGUID) = false)
    (hlim : (r.callbackRetries.index 0 (pod.label LabelGUID)).val < r.callbackRetryLimit.val)
    (he : c.Report pod = some e) :
    reportIfRequired r c pod =
      (⟨r.callbackRetryLimit,
          r.callbackRetries.set (pod.label LabelGUID)
            (GoInt.add (r.callbackRetries.index 0 (pod.label LabelGUID)) ⟨1, by omega⟩),
          r.reported, r.ttlSeconds⟩,
        [Call.Report pod (some e)], some e) := by
  unfold reportIfRequired
  simp only []
  rw [if_pos (by simp [hrep, hlim]), he]

theorem reportIfRequired_success (r : Reconciler) (c : Collaborators) (pod : Pod)
    (hrep : r.reported.index false (pod.label LabelGUID) = false)
    (hlim : (r.callbackRetries.index 0 (pod.label LabelGUID)).val < r.callbackRetryLimit.val)
    (he : c.Report pod = none) :
    reportIfRequired r c pod =
      (⟨r.callbackRetryLimit, r.callbackRetries,
          r.reported.set (pod.label LabelGUID) true, r.ttlSeconds⟩,
        [Call.Report pod none], none) := by
  unfold reportIfRequired
  simp only []
  rw [if_pos (by simp [hrep, hlim]), he]

/-- C1. Report transition guard: for every reconciler state and every pod,
reportIfRequired invokes Reporter.Report exactly once, with that pod, if the
GUID of the pod is not marked reported and its retry count is strictly below
callbackRetryLimit; otherwise it invokes nothing, returns nil and leaves both
tracking maps unchanged. -/
theorem reportIfRequired_guard (r : Reconciler) (c : Collaborators) (pod : Pod) :
    (r.reported.index false (pod.label LabelGUID) = false ∧
        (r.callbackRetries.index 0 (pod.label LabelGUID)).val < r.callbackRetryLimit.val →
      (reportIfRequired r c pod).2.1 = [Call.Report pod (c.Report pod)]) ∧
    (¬ (r.reported.index false (pod.label LabelGUID) = false ∧
        (r.callbackRetries.index 0 (pod.label LabelGUID)).val < r.callbackRetryLimit.val) →
      (reportIfRequired r c pod).2.1 = [] ∧
      (reportIfRequired r c pod).2.2 = none ∧
      (reportIfRequired r c pod).1.callbackRetries = r.callbackRetries ∧
      (reportIfRequired r c pod).1.reported = r.reported) := by
  refine ⟨fun h => ?_, fun h => ?_⟩
  · cases he : c.Report pod with
    | none => rw [reportIfRequired_success r c pod h.1 h.2 he]
    | some e => rw [reportIfRequired_failure r c pod e h.1 h.2 he]
  · rw [reportIfRequired_skip r c pod h]
    exact ⟨rfl, rfl, rfl, rfl⟩

theorem GoInt.add_one_val (a b : GoInt) (h : a.val < b.val) :
    (GoInt.add a ⟨1, by omega⟩).val = a.val + 1 := by
  have ha := a.property
  have hb := b.property
  simp only [GoInt.add]
  exact wrapInt64_val_of_inRange _ (by omega)

/-- C2. Report failure: for every terminated pod with at least one matching job
whose GUID is unreported and below the retry limit, if Reporter.Report returns
an error e then Reconcile returns exactly e with an empty result, the calls made
are the pod fetch, the job lookup and the one report, the retry count of the
GUID increases by exactly 1 (becoming 1 when the GUID had no entry), the
reported map is unchanged and Deleter.Delete is not invoked, whether or not the
task has expired. -/
theorem Reconcile_report_failure (r : Reconciler) (c : Collaborators) (request : Request)
    (pod : Pod) (jobs : List Job) (e : Error)
    (hget : c.Get request = .ok pod)
    (hterm : taskContainerHasTerminated pod = true)
    (hjobs : c.GetByGUID (pod.label LabelGUID) = .ok jobs)
    (hne : jobs ≠ [])
    (hunreported : r.reported.index false (pod.label LabelGUID) = false)
    (hbelow : (r.callbackRetries.index 0 (pod.label LabelGUID)).val < r.callbackRetryLimit.val)
    (hfail : c.Report pod = some e) :
    (Reconcile r c request).ret = some (Result.empty, some e) ∧
    (Reconcile r c request).calls =
      [Call.Get request, Call.GetByGUID (pod.label LabelGUID), Call.Report pod (some e)] ∧
    ((Reconcile r c request).self.callbackRetries.index 0 (pod.label LabelGUID)).val =
      (r.callbackRetries.index 0 (pod.label LabelGUID)).val + 1 ∧
    (r.callbackRetries (pod.label LabelGUID) = none →
      (Reconcile r c request).self.callbackRetries (pod.label LabelGUID) = some ⟨1, by omega⟩) ∧
    (Reconcile r c request).self.reported = r.reported ∧
    (∀ guid err, Call.Delete guid err ∉ (Reconcile r c request).calls) := by
  have hlen : jobs.length ≠ 0 := by simpa using hne
  have hR : Reconcile r c request =
      ⟨⟨r.callbackRetryLimit,
          r.callbackRetries.set (pod.label LabelGUID)
            (GoInt.add (r.callbackRetries.index 0 (pod.label LabelGUID)) ⟨1, by omega⟩),
          r.reported, r.ttlSeconds⟩,
        [Call.Get request, Call.GetByGUID (pod.label LabelGUID), Call.Report pod (some e)],
        some (Result.empty, some e)⟩ := by
    unfold Reconcile
    simp [hget, hterm, hjobs, hlen, reportIfRequired_failure r c pod e hunreported hbelow hfail]
  rw [hR]
  refine ⟨rfl, rfl, ?_, ?_, rfl, ?_⟩
  · simp only [GoMap.index, GoMap.set, if_true, Option.getD_some]
    exact GoInt.add_one_val _ _ hbelow
  · intro hnone
    simp only [GoMap.index, GoMap.set, if_true, hnone, Option.getD_none]
    rfl
  · intro guid err
    simp

theorem reportIfRequired_cases (r : Reconciler) (c : Collaborators) (pod : Pod) :
    (reportIfRequired r c pod = (r, [], none) ∧
      ¬ (r.reported.index false (pod.label LabelGUID) = false ∧
        (r.callbackRetries.index 0 (pod.label LabelGUID)).val < r.callbackRetryLimit.val)) ∨
    ((r.reported.index false (pod.label LabelGUID) = false ∧
        (r.callbackRetries.index 0 (pod.label LabelGUID)).val < r.callbackRetryLimit.val) ∧
      ((∃ e, c.Report pod = some e ∧ reportIfRequired r c pod =
          (⟨r.callbackRetryLimit,
              r.callbackRetries.set (pod.label LabelGUID)
                (GoInt.add (r.callbackRetries.index 0 (pod.label LabelGUID)) ⟨1, by omega⟩),
              r.reported, r.ttlSeconds⟩,
            [Call.Report pod (some e)], some e)) ∨
        (c.Report pod = none ∧ reportIfRequired r c pod =
          (⟨r.callbackRetryLimit, r.callbackRetries,
              r.reported.set (pod.label LabelGUID) true, r.ttlSeconds⟩,
            [Call.Report pod none], none)))) := by
  by_cases h : r.reported.index false (pod.label LabelGUID) = false ∧
      (r.callbackRetries.index 0 (pod.label LabelGUID)).val < r.callbackRetryLimit.val
  · right
    refine ⟨h, ?_⟩
    cases he : c.Report pod with
    | none => exact Or.inr ⟨rfl, reportIfRequired_success r c pod h.1 h.2 he⟩
    | some e => exact Or.inl ⟨e, rfl, reportIfRequired_failure r c pod e h.1 h.2 he⟩
  · exact Or.inl ⟨reportIfRequired_skip r c pod h, h⟩

theorem Reconcile_cases (r : Reconciler) (c : Collaborators) (request : Request) :
    ((Reconcile r c request).self = r ∧ (Reconcile r c request).calls = [Call.Get request]) ∨
    (∃ guid, (Reconcile r c request).self = r ∧
      (Reconcile r c request).calls = [Call.Get request, Call.GetByGUID guid]) ∨
    (∃ pod, c.Get request = .ok pod ∧
      (Reconcile r c request).self = (reportIfRequired r c pod).1 ∧
      (Reconcile r c request).calls =
        [Call.Get request, Call.GetByGUID (pod.label LabelGUID)] ++
          (reportIfRequired r c pod).2.1) ∨
    (∃ pod, c.Get request = .ok pod ∧ (reportIfRequired r c pod).2.2 = none ∧
      taskHasExpired (reportIfRequired r c pod).1 c.Now pod = some true ∧
      (Reconcile r c request).self =
        afterDelete (reportIfRequired r c pod).1 (pod.label LabelGUID)
          (c.Delete (pod.label LabelGUID)).2 ∧
      (Reconcile r c request).calls =
        [Call.Get request, Call.GetByGUID (pod.label LabelGUID)] ++
          (reportIfRequired r c pod).2.1 ++
          [Call.Delete (pod.label LabelGUID) (c.Delete (pod.label LabelGUID)).2]) := by
  unfold Reconcile
  cases hget : c.Get request with
  | error err =>
    left
    by_cases hnf : err.notFound <;> simp [hnf]
  | ok pod =>
    by_cases hterm : taskContainerHasTerminated pod
    · cases hjobs : c.GetByGUID (pod.label LabelGUID) with
      | error err =>
        right; left
        exact ⟨pod.label LabelGUID, by simp [hterm, hjobs]⟩
      | ok jobs =>
        by_cases hlen : jobs.length = 0
        · right; left
          exact ⟨pod.label LabelGUID, by simp [hterm, hjobs, hlen]⟩
        · right; right
          rcases hrep : reportIfRequired r c pod with ⟨r1, reportCalls, rerr⟩
          cases rerr with
          | some e =>
            left
            exact ⟨pod, rfl, by simp [hterm, hjobs, hlen, hrep]⟩
          | none =>
            cases hexp : taskHasExpired r1 c.Now pod with
            | none =>
              left
              exact ⟨pod, rfl, by simp [hterm, hjobs, hlen, hrep, hexp]⟩
            | some b =>
              cases b with
              | false =>
                left
                exact ⟨pod, rfl, by simp [hterm, hjobs, hlen, hrep, hexp]⟩
              | true =>
                right
                have hne : jobs ≠ [] := by simpa using hlen
                refine ⟨pod, rfl, by rw [hrep], by rw [hrep]; exact hexp, ?_, ?_⟩
                · simp only [hterm, hjobs, hrep, hexp, afterDelete]
                  by_cases hd : (c.Delete (pod.label LabelGUID)).2 = none <;> simp [hne, hd]
                · simp [hterm, hjobs, hne, hrep, hexp]
    · left
      simp [hterm]

theorem GoMap.index_set {V : Type} (m : GoMap V) (zero : V) (k : String) (v : V) (k' : String) :
    (m.set k v).index zero k' = if k' = k then v else m.index zero k' := by
  simp only [GoMap.index, GoMap.set]
  split_ifs <;> rfl

theorem GoMap.index_delete {V : Type} (m : GoMap V) (zero : V) (k : String) (k' : String) :
    (m.delete k).index zero k' = if k' = k then zero else m.index zero k' := by
  simp only [GoMap.index, GoMap.delete]
  split_ifs <;> rfl

theorem reportIfRequired_callbackRetryLimit (r : Reconciler) (c : Collaborators) (pod : Pod) :
    (reportIfRequired r c pod).1.callbackRetryLimit = r.callbackRetryLimit := by
  rcases reportIfRequired_cases r c pod with ⟨h, _⟩ | ⟨_, ⟨e, _, h⟩ | ⟨_, h⟩⟩ <;> rw [h]

theorem Reconcile_callbackRetryLimit (r : Reconciler) (c : Collaborators) (request : Request) :
    (Reconcile r c request).self.callbackRetryLimit = r.callbackRetryLimit := by
  rcases Reconcile_cases r c request with
    ⟨h, _⟩ | ⟨_, h, _⟩ | ⟨pod, _, h, _⟩ | ⟨pod, _, _, _, h, _⟩
  · rw [h]
  · rw [h]
  · rw [h, reportIfRequired_callbackRetryLimit]
  · rw [h]
    exact reportIfRequired_callbackRetryLimit r c pod

theorem reportIfRequired_capped (r : Reconciler) (c : Collaborators) (pod : Pod)
    (hinv : ∀ g, (r.callbackRetries.index 0 g).val ≤ r.callbackRetryLimit.val) (g : String) :
    ((reportIfRequired r c pod).1.callbackRetries.index 0 g).val ≤ r.callbackRetryLimit.val := by
  rcases reportIfRequired_cases r c pod with ⟨h, _⟩ | ⟨hg, ⟨e, _, h⟩ | ⟨_, h⟩⟩
  · rw [h]; exact hinv g
  · rw [h]
    simp only [GoMap.index_set]
    split_ifs with hk
    · rw [GoInt.add_one_val _ _ hg.2]
      omega
    · exact hinv g
  · rw [h]; exact hinv g

theorem Reconcile_capped (r : Reconciler) (c : Collaborators) (request : Request)
    (hlimit : 0 ≤ r.callbackRetryLimit.val)
    (hinv : ∀ g, (r.callbackRetries.index 0 g).val ≤ r.callbackRetryLimit.val) (g : String) :
    ((Reconcile r c request).self.callbackRetries.index 0 g).val ≤ r.callbackRetryLimit.val := by
  rcases Reconcile_cases r c request with
    ⟨h, _⟩ | ⟨_, h, _⟩ | ⟨pod, _, h, _⟩ | ⟨pod, _, _, _, h, _⟩
  · rw [h]; exact hinv g
  · rw [h]; exact hinv g
  · rw [h]; exact reportIfRequired_capped r c pod hinv g
  · rw [h]
    simp only [afterDelete, GoMap.index_delete]
    split_ifs with hk
    · exact hlimit
    · exact reportIfRequired_capped r c pod hinv g

theorem reconcileAll_callbackRetryLimit (steps : List (Collaborators × Request)) :
    ∀ r : Reconciler, (reconcileAll r steps).1.callbackRetryLimit = r.callbackRetryLimit := by
  induction steps with
  | nil => intro r; rfl
  | cons step rest ih =>
    intro r
    obtain ⟨c, request⟩ := step
    simp only [reconcileAll]
    rw [ih, Reconcile_callbackRetryLimit]

theorem reconcileAll_capped (steps : List (Collaborators × Request)) :
    ∀ r : Reconciler, 0 ≤ r.callbackRetryLimit.val →
      (∀ g, (r.callbackRetries.index 0 g).val ≤ r.callbackRetryLimit.val) →
      ∀ g, ((reconcileAll r steps).1.callbackRetries.index 0 g).val ≤ r.callbackRetryLimit.val := by
  induction steps with
  | nil => intro r _ hinv g; exact hinv g
  | cons step rest ih =>
    intro r hlimit hinv g
    obtain ⟨c, request⟩ := step
    simp only [reconcileAll]
    have hl := Reconcile_callbackRetryLimit r c request
    have := ih (Reconcile r c request).self (by rw [hl]; exact hlimit)
      (fun g' => by rw [hl]; exact Reconcile_capped r c request hlimit hinv g') g
    rw [hl] at this
    exact this

/-- C8. Retry count is capped: for every reconciler built by NewReconciler with
callbackRetryLimit >= 0 and every finite sequence of Reconcile invocations with
arbitrary collaborator outcomes, the retry count stored for every GUID is at
most callbackRetryLimit afterwards. -/
theorem retry_count_capped (callbackRetryLimit ttlSeconds : GoInt)
    (hlimit : 0 ≤ callbackRetryLimit.val) (steps : List (Collaborators × Request))
    (guid : String) :
    ((reconcileAll (NewReconciler callbackRetryLimit ttlSeconds) steps).1.callbackRetries.index
        0 guid).val ≤ callbackRetryLimit.val :=
  reconcileAll_capped steps (NewReconciler callbackRetryLimit ttlSeconds) hlimit
    (fun _ => hlimit) guid

/-! ## Reported flag and the calls made -/

theorem reportsGuarded_append (guid : String) (xs ys : List Call) :
    ∀ flag, reportsGuarded guid flag (xs ++ ys) ↔
      reportsGuarded guid flag xs ∧
        reportsGuarded guid (xs.foldl (reportedStep guid) flag) ys := by
  induction xs with
  | nil => intro flag; simp [reportsGuarded]
  | cons x xs ih =>
    intro flag
    rw [List.cons_append]
    simp only [reportsGuarded, List.foldl_cons]
    rw [ih, and_assoc]

theorem delete_mem_of_flag_unset (guid : String) (calls : List Call) :
    ∀ flag, flag = true → calls.foldl (reportedStep guid) flag = false →
      Call.Delete guid none ∈ calls := by
  induction calls with
  | nil => intro flag h1 h2; simp only [List.foldl_nil] at h2; rw [h1] at h2; cases h2
  | cons call rest ih =>
    intro flag h1 h2
    simp only [List.foldl_cons] at h2
    by_cases hstep : reportedStep guid flag call = true
    · exact List.mem_cons_of_mem _ (ih _ hstep h2)
    · subst h1
      have hcall : call = Call.Delete guid none := by
        cases call with
        | Get request => simp [reportedStep] at hstep
        | GetByGUID g => simp [reportedStep] at hstep
        | Report pod err =>
          cases err with
          | none => simp only [reportedStep] at hstep; split_ifs at hstep <;> simp at hstep
          | some e => simp [reportedStep] at hstep
        | Delete deleted err =>
          cases err with
          | none =>
            simp only [reportedStep] at hstep
            split_ifs at hstep with hd
            · rw [hd]
            · simp at hstep
          | some e => simp [reportedStep] at hstep
      rw [hcall]
      exact List.mem_cons_self _ _

theorem reportIfRequired_reported_trace (r : Reconciler) (c : Collaborators) (pod : Pod)
    (guid : String) :
    reportsGuarded guid (r.reported.index false guid) (reportIfRequired r c pod).2.1 ∧
    (reportIfRequired r c pod).1.reported.index false guid =
      (reportIfRequired r c pod).2.1.foldl (reportedStep guid) (r.reported.index false guid) := by
  rcases reportIfRequired_cases r c pod with ⟨h, _⟩ | ⟨hg, ⟨e, _, h⟩ | ⟨_, h⟩⟩
  · rw [h]; simp [reportsGuarded]
  · rw [h]
    refine ⟨⟨?_, trivial⟩, ?_⟩
    · intro p err hp hlabel
      injection hp with hp1 _
      subst hp1
      rw [hlabel] at hg
      exact hg.1
    · simp [reportedStep]
  · rw [h]
    refine ⟨⟨?_, trivial⟩, ?_⟩
    · intro p err hp hlabel
      injection hp with hp1 _
      subst hp1
      rw [hlabel] at hg
      exact hg.1
    · simp only [GoMap.index_set, List.foldl_cons, List.foldl_nil, reportedStep]
      by_cases hk : guid = pod.label LabelGUID
      · simp [hk]
      · have hk' : ¬ pod.label LabelGUID = guid := fun h => hk h.symm
        simp [hk, hk']

theorem Reconcile_reported_trace (r : Reconciler) (c : Collaborators) (request : Request)
    (guid : String) :
    reportsGuarded guid (r.reported.index false guid) (Reconcile r c request).calls ∧
    (Reconcile r c request).self.reported.index false guid =
      (Reconcile r c request).calls.foldl (reportedStep guid) (r.reported.index false guid) := by
  have hrep := reportIfRequired_reported_trace r c
  have hpre : ∀ (flag : Bool) (g : String),
      reportsGuarded guid flag [Call.Get request, Call.GetByGUID g] ∧
      [Call.Get request, Call.GetByGUID g].foldl (reportedStep guid) flag = flag := by
    intro flag g
    simp [reportsGuarded, reportedStep]
  rcases Reconcile_cases r c request with
    ⟨h, hc⟩ | ⟨_, h, hc⟩ | ⟨pod, _, h, hc⟩ | ⟨pod, _, _, _, h, hc⟩
  · rw [h, hc]; simp [reportsGuarded, reportedStep]
  · rw [h, hc]; simp [reportsGuarded, reportedStep]
  · rw [h, hc]
    simp only [reportsGuarded_append, List.foldl_append, fun flag g => (hpre flag g).2]
    exact ⟨⟨(hpre _ _).1, (hrep pod guid).1⟩, (hrep pod guid).2⟩
  · rw [h, hc]
    simp only [reportsGuarded_append, List.foldl_append, fun flag g => (hpre flag g).2]
    rw [← (hrep pod guid).2]
    refine ⟨⟨⟨(hpre _ _).1, (hrep pod guid).1⟩, by simp [reportsGuarded]⟩, ?_⟩
    cases hd : (c.Delete (pod.label LabelGUID)).2 with
    | none =>
      simp only [afterDelete, if_true, GoMap.index_delete, reportedStep, List.foldl_cons,
        List.foldl_nil]
      by_cases hk : guid = pod.label LabelGUID
      · simp [hk]
      · have hk' : ¬ pod.label LabelGUID = guid := fun h => hk h.symm
        simp [hk, hk']
    | some e =>
      simp [afterDelete, reportedStep]

theorem reconcileAll_reported_trace (guid : String) (steps : List (Collaborators × Request)) :
    ∀ r : Reconciler,
      reportsGuarded guid (r.reported.index false guid) (reconcileAll r steps).2 ∧
      (reconcileAll r steps).1.reported.index false guid =
        (reconcileAll r steps).2.foldl (reportedStep guid) (r.reported.index false guid) := by
  induction steps with
  | nil => intro r; simp [reconcileAll, reportsGuarded]
  | cons step rest ih =>
    intro r
    obtain ⟨c, request⟩ := step
    have h1 := Reconcile_reported_trace r c request guid
    have h2 := ih (Reconcile r c request).self
    simp only [reconcileAll, reportsGuarded_append, List.foldl_append]
    rw [h1.2] at h2
    exact ⟨⟨h1.1, h2.1⟩, h2.2⟩

theorem GoMap.index_eq_true (m : GoMap Bool) (k : String) (h : m.index false k = true) :
    m k = some true := by
  simp only [GoMap.index] at h
  cases hk : m k with
  | none => rw [hk] at h; cases h
  | some b => rw [hk] at h; simp only [Option.getD_some] at h; rw [h]

/-- C4. Reported GUIDs never re-enter the report path: along any sequence of
Reconcile invocations starting from NewReconciler, once a Report call for a GUID
has succeeded, (1) the reported flag of that GUID is set at the end of the
sequence unless a Delete for that GUID has succeeded in between, and (2) any
later Report call for that GUID comes after a Delete call for that GUID that
succeeded after the first report. -/
theorem reported_guid_not_reported_again (callbackRetryLimit ttlSeconds : GoInt)
    (steps : List (Collaborators × Request)) (reportedPod : Pod) (before after : List Call)
    (hcalls : (reconcileAll (NewReconciler callbackRetryLimit ttlSeconds) steps).2 =
      before ++ Call.Report reportedPod none :: after) :
    (Call.Delete (reportedPod.label LabelGUID) none ∉ after →
      (reconcileAll (NewReconciler callbackRetryLimit ttlSeconds) steps).1.reported
        (reportedPod.label LabelGUID) = some true) ∧
    (∀ mid pod err rest, after = mid ++ Call.Report pod err :: rest →
      pod.label LabelGUID = reportedPod.label LabelGUID →
      Call.Delete (reportedPod.label LabelGUID) none ∈ mid) := by
  have htrace := reconcileAll_reported_trace (reportedPod.label LabelGUID) steps
    (NewReconciler callbackRetryLimit ttlSeconds)
  rw [hcalls] at htrace
  simp only [reportsGuarded_append, List.foldl_append, List.foldl_cons, reportsGuarded,
    reportedStep, if_true] at htrace
  obtain ⟨⟨_, _, hguard⟩, hflag⟩ := htrace
  constructor
  · intro hnodelete
    apply GoMap.index_eq_true
    rw [hflag]
    cases hf : after.foldl (reportedStep (reportedPod.label LabelGUID)) true with
    | true => rfl
    | false => exact absurd (delete_mem_of_flag_unset _ after true rfl hf) hnodelete
  · intro mid pod err rest hafter hlabel
    rw [hafter, reportsGuarded_append] at hguard
    have hunset := hguard.2.1 pod err rfl hlabel
    exact delete_mem_of_flag_unset _ mid true rfl hunset

theorem reported_guid_not_reported_again_witness :
    (reconcileAll (NewReconciler ⟨3, by omega⟩ ⟨1, by omega⟩)
        [(world 10000000000 none none, finishedRequest),
          (world 10000000000 none none, finishedRequest)]).2 =
      [Call.Get finishedRequest, Call.GetByGUID "guid-1"] ++
        Call.Report finishedPod none ::
          [Call.Delete "guid-1" none, Call.Get finishedRequest, Call.GetByGUID "guid-1",
            Call.Report finishedPod none, Call.Delete "guid-1" none] ∧
    Call.Delete (finishedPod.label LabelGUID) none ∈ [Call.Delete "guid-1" none,
      Call.Get finishedRequest, Call.GetByGUID "guid-1"] :=
  ⟨by decide,
    (reported_guid_not_reported_again ⟨3, by omega⟩ ⟨1, by omega⟩
      [(world 10000000000 none none, finishedRequest),
        (world 10000000000 none none, finishedRequest)]
      finishedPod [Call.Get finishedRequest, Call.GetByGUID "guid-1"]
      [Call.Delete "guid-1" none, Call.Get finishedRequest, Call.GetByGUID "guid-1",
        Call.Report finishedPod none, Call.Delete "guid-1" none] (by decide)).2
      [Call.Delete "guid-1" none, Call.Get finishedRequest, Call.GetByGUID "guid-1"]
      finishedPod none [Call.Delete "guid-1" none] (by decide) rfl⟩

/-! ## Retry limit -/

theorem reportIfRequired_at_limit (r : Reconciler) (c : Collaborators) (pod : Pod)
    (guid : String)
    (hreached : r.callbackRetryLimit.val ≤ (r.callbackRetries.index 0 guid).val) :
    (pod.label LabelGUID = guid → reportIfRequired r c pod = (r, [], none)) ∧
    (∀ p err, p.label LabelGUID = guid → Call.Report p err ∉ (reportIfRequired r c pod).2.1) ∧
    (reportIfRequired r c pod).1.callbackRetries.index 0 guid =
      r.callbackRetries.index 0 guid := by
  by_cases hk : pod.label LabelGUID = guid
  · have hskip : reportIfRequired r c pod = (r, [], none) := by
      apply reportIfRequired_skip
      rw [hk]
      intro h
      omega
    rw [hskip]
    exact ⟨fun _ => rfl, fun _ _ _ => List.not_mem_nil _, rfl⟩
  · have hk' : ¬ guid = pod.label LabelGUID := fun h => hk h.symm
    refine ⟨fun h => absurd h hk, ?_⟩
    rcases reportIfRequired_cases r c pod with ⟨h, _⟩ | ⟨_, ⟨e, _, h⟩ | ⟨_, h⟩⟩
    · rw [h]
      exact ⟨fun _ _ _ => List.not_mem_nil _, rfl⟩
    · rw [h]
      refine ⟨?_, ?_⟩
      · intro p err hp hmem
        simp only [List.mem_singleton, Call.Report.injEq] at hmem
        rw [hmem.1] at hp
        exact hk hp
      · simp only [GoMap.index_set, if_neg hk']
    · rw [h]
      refine ⟨?_, rfl⟩
      intro p err hp hmem
      simp only [List.mem_singleton, Call.Report.injEq] at hmem
      rw [hmem.1] at hp
      exact hk hp

theorem Reconcile_at_limit (r : Reconciler) (c : Collaborators) (request : Request)
    (guid : String)
    (hreached : r.callbackRetryLimit.val ≤ (r.callbackRetries.index 0 guid).val) :
    (∀ p err, p.label LabelGUID = guid → Call.Report p err ∉ (Reconcile r c request).calls) ∧
    ((∀ err, Call.Delete guid err ∉ (Reconcile r c request).calls) →
      (Reconcile r c request).self.callbackRetries.index 0 guid =
        r.callbackRetries.index 0 guid) := by
  rcases Reconcile_cases r c request with
    ⟨h, hc⟩ | ⟨_, h, hc⟩ | ⟨pod, _, h, hc⟩ | ⟨pod, _, _, _, h, hc⟩
  · rw [h, hc]
    exact ⟨fun p err _ hmem => by simp at hmem, fun _ => rfl⟩
  · rw [h, hc]
    exact ⟨fun p err _ hmem => by simp at hmem, fun _ => rfl⟩
  · obtain ⟨_, hnone, hidx⟩ := reportIfRequired_at_limit r c pod guid hreached
    rw [h, hc]
    refine ⟨?_, fun _ => hidx⟩
    intro p err hp hmem
    simp only [List.cons_append, List.nil_append, List.mem_cons, reduceCtorEq, false_or] at hmem
    exact hnone p err hp (by simpa using hmem)
  · obtain ⟨_, hnone, hidx⟩ := reportIfRequired_at_limit r c pod guid hreached
    rw [h, hc]
    refine ⟨?_, ?_⟩
    · intro p err hp hmem
      simp only [List.cons_append, List.nil_append, List.mem_cons, List.mem_append,
        List.mem_singleton, reduceCtorEq, false_or, or_false] at hmem
      exact hnone p err hp (by simpa using hmem)
    · intro hnodelete
      have hk : ¬ guid = pod.label LabelGUID := by
        intro hk
        apply hnodelete (c.Delete (pod.label LabelGUID)).2
        rw [hk]
        simp
      simp only [afterDelete, GoMap.index_delete, if_neg hk]
      exact hidx

theorem reconcileAll_append (xs ys : List (Collaborators × Request)) :
    ∀ r : Reconciler, reconcileAll r (xs ++ ys) =
      ((reconcileAll (reconcileAll r xs).1 ys).1,
        (reconcileAll r xs).2 ++ (reconcileAll (reconcileAll r xs).1 ys).2) := by
  induction xs with
  | nil => intro r; simp [reconcileAll]
  | cons step rest ih =>
    intro r
    obtain ⟨c, request⟩ := step
    rw [List.cons_append]
    simp only [reconcileAll]
    rw [ih, List.append_assoc]

theorem reconcileAll_at_limit (guid : String) (steps : List (Collaborators × Request)) :
    ∀ r : Reconciler, r.callbackRetryLimit.val ≤ (r.callbackRetries.index 0 guid).val →
      (∀ err, Call.Delete guid err ∉ (reconcileAll r steps).2) →
      (∀ p err, p.label LabelGUID = guid → Call.Report p err ∉ (reconcileAll r steps).2) ∧
      (reconcileAll r steps).1.callbackRetries.index 0 guid =
        r.callbackRetries.index 0 guid := by
  induction steps with
  | nil =>
    intro r _ _
    exact ⟨fun _ _ _ => List.not_mem_nil _, rfl⟩
  | cons step rest ih =>
    intro r hreached hnodelete
    obtain ⟨c, request⟩ := step
    simp only [reconcileAll, List.mem_append, not_or] at hnodelete ⊢
    obtain ⟨hnone, hidx⟩ := Reconcile_at_limit r c request guid hreached
    have hidx' := hidx (fun err => (hnodelete err).1)
    have hreached' : (Reconcile r c request).self.callbackRetryLimit.val ≤
        ((Reconcile r c request).self.callbackRetries.index 0 guid).val := by
      rw [Reconcile_callbackRetryLimit, hidx']
      exact hreached
    obtain ⟨hnone', hfinal⟩ :=
      ih (Reconcile r c request).self hreached' (fun err => (hnodelete err).2)
    exact ⟨fun p err hp => ⟨hnone p err hp, hnone' p err hp⟩, by rw [hfinal, hidx']⟩

/-- C3, as the code has it. Once the retry count of a GUID has reached
callbackRetryLimit, and for as long as no Reconcile calls Deleter.Delete for
that GUID, no Reconcile of a sequence invokes Reporter.Report for a pod with
that GUID, and the report step of every Reconcile of the sequence, and of the
one that follows it, does nothing for such a pod and returns no error. -/
theorem retry_limit_disables_reporting_until_delete (r : Reconciler)
    (steps : List (Collaborators × Request)) (guid : String)
    (hreached : r.callbackRetryLimit.val ≤ (r.callbackRetries.index 0 guid).val)
    (hnodelete : ∀ err, Call.Delete guid err ∉ (reconcileAll r steps).2) :
    (∀ pod err, pod.label LabelGUID = guid → Call.Report pod err ∉ (reconcileAll r steps).2) ∧
    (∀ earlier later, steps = earlier ++ later → ∀ c pod, pod.label LabelGUID = guid →
      reportIfRequired (reconcileAll r earlier).1 c pod =
        ((reconcileAll r earlier).1, [], none)) := by
  refine ⟨(reconcileAll_at_limit guid steps r hreached hnodelete).1, ?_⟩
  intro earlier later hsplit c pod hlabel
  have hnodelete' : ∀ err, Call.Delete guid err ∉ (reconcileAll r earlier).2 := by
    intro err hmem
    apply hnodelete err
    rw [hsplit, reconcileAll_append]
    exact List.mem_append_left _ hmem
  have hidx := (reconcileAll_at_limit guid earlier r hreached hnodelete').2
  apply (reportIfRequired_at_limit _ c pod guid _).1 hlabel
  rw [reconcileAll_callbackRetryLimit, hidx]
  exact hreached

/-- C3 fails as stated. With retry limit 1, a first Reconcile whose report fails
brings the retry count of `guid-1` to the limit. The next Reconcile skips the
report, finds the task expired, clears the retry count and fails to delete. The
Reconcile after that invokes Reporter.Report again for the same GUID, and its
report step returns an error. -/
theorem retry_limit_reset_by_failed_deletion :
    ((reconcileAll limitOne
        [(world 10000000000 (some boom) (some boom), finishedRequest)]).1.callbackRetries.index
        0 "guid-1").val = limitOne.callbackRetryLimit.val ∧
    (reconcileAll
        (reconcileAll limitOne [(world 10000000000 (some boom) (some boom), finishedRequest)]).1
        [(world 10000000000 (some boom) (some boom), finishedRequest),
          (world 10000000000 (some boom) (some boom), finishedRequest)]).2 =
      [Call.Get finishedRequest, Call.GetByGUID "guid-1", Call.Delete "guid-1" (some boom),
        Call.Get finishedRequest, Call.GetByGUID "guid-1",
        Call.Report finishedPod (some boom)] := by
  decide

theorem retry_limit_disables_reporting_until_delete_witness :
    (reconcileAll limitOne [(world 1000 (some boom) none, finishedRequest)]).1.callbackRetryLimit.val ≤
      ((reconcileAll limitOne
        [(world 1000 (some boom) none, finishedRequest)]).1.callbackRetries.index 0 "guid-1").val ∧
    (∀ pod err, pod.label LabelGUID = "guid-1" →
      Call.Report pod err ∉
        (reconcileAll
          (reconcileAll limitOne [(world 1000 (some boom) none, finishedRequest)]).1
          [(world 2000 (some boom) none, finishedRequest),
            (world 3000 none none, finishedRequest)]).2) :=
  ⟨by decide,
    (retry_limit_disables_reporting_until_delete
      (reconcileAll limitOne [(world 1000 (some boom) none, finishedRequest)]).1
      [(world 2000 (some boom) none, finishedRequest), (world 3000 none none, finishedRequest)]
      "guid-1" (by decide)
      (fun err => by
        rw [show (reconcileAll
            (reconcileAll limitOne [(world 1000 (some boom) none, finishedRequest)]).1
            [(world 2000 (some boom) none, finishedRequest),
              (world 3000 none none, finishedRequest)]).2 =
          [Call.Get finishedRequest, Call.GetByGUID "guid-1", Call.Get finishedRequest,
            Call.GetByGUID "guid-1"] from by decide]
        simp)).1⟩

/-! ## Expiry and deletion -/

theorem reportIfRequired_ttlSeconds (r : Reconciler) (c : Collaborators) (pod : Pod) :
    (reportIfRequired r c pod).1.ttlSeconds = r.ttlSeconds := by
  rcases reportIfRequired_cases r c pod with ⟨h, _⟩ | ⟨_, ⟨e, _, h⟩ | ⟨_, h⟩⟩ <;> rw [h]

theorem taskHasExpired_congr (r r' : Reconciler) (now : Time) (pod : Pod)
    (h : r'.ttlSeconds = r.ttlSeconds) : taskHasExpired r' now pod = taskHasExpired r now pod := by
  simp only [taskHasExpired, h]

theorem reportIfRequired_no_error (r : Reconciler) (c : Collaborators) (pod : Pod)
    (h : (reportIfRequired r c pod).2.2 = none) :
    (reportIfRequired r c pod).1.callbackRetries = r.callbackRetries ∧
    ((reportIfRequired r c pod).1.reported = r.reported ∨
      (reportIfRequired r c pod).1.reported = r.reported.set (pod.label LabelGUID) true) := by
  rcases reportIfRequired_cases r c pod with ⟨h', _⟩ | ⟨_, ⟨e, _, h'⟩ | ⟨_, h'⟩⟩
  · rw [h']; exact ⟨rfl, Or.inl rfl⟩
  · rw [h'] at h; cases h
  · rw [h']; exact ⟨rfl, Or.inr rfl⟩

theorem reportIfRequired_no_delete (r : Reconciler) (c : Collaborators) (pod : Pod) :
    (reportIfRequired r c pod).2.1.filter Call.isDelete = [] := by
  rcases reportIfRequired_cases r c pod with ⟨h, _⟩ | ⟨_, ⟨e, _, h⟩ | ⟨_, h⟩⟩ <;>
    rw [h] <;> simp [Call.isDelete]

theorem Reconcile_expired (r : Reconciler) (c : Collaborators) (request : Request) (pod : Pod)
    (jobs : List Job)
    (hget : c.Get request = .ok pod)
    (hterm : taskContainerHasTerminated pod = true)
    (hjobs : c.GetByGUID (pod.label LabelGUID) = .ok jobs)
    (hne : jobs ≠ [])
    (hreport : (reportIfRequired r c pod).2.2 = none)
    (hexpired : taskHasExpired r c.Now pod = some true) :
    Reconcile r c request =
      ⟨afterDelete (reportIfRequired r c pod).1 (pod.label LabelGUID)
          (c.Delete (pod.label LabelGUID)).2,
        [Call.Get request, Call.GetByGUID (pod.label LabelGUID)] ++
          (reportIfRequired r c pod).2.1 ++
          [Call.Delete (pod.label LabelGUID) (c.Delete (pod.label LabelGUID)).2],
        some (Result.empty, (c.Delete (pod.label LabelGUID)).2)⟩ := by
  have hexp' := hexpired
  rw [← taskHasExpired_congr r _ c.Now pod (reportIfRequired_ttlSeconds r c pod)] at hexp'
  rcases hrep : reportIfRequired r c pod with ⟨r1, reportCalls, rerr⟩
  rw [hrep] at hreport hexp'
  simp only at hreport hexp'
  subst hreport
  unfold Reconcile
  simp only [hget, hterm, hjobs, hrep, hexp', afterDelete]
  by_cases hd : (c.Delete (pod.label LabelGUID)).2 = none <;> simp [hne, hd]

theorem Reconcile_unexpired (r : Reconciler) (c : Collaborators) (request : Request) (pod : Pod)
    (jobs : List Job)
    (hget : c.Get request = .ok pod)
    (hterm : taskContainerHasTerminated pod = true)
    (hjobs : c.GetByGUID (pod.label LabelGUID) = .ok jobs)
    (hne : jobs ≠ [])
    (hreport : (reportIfRequired r c pod).2.2 = none)
    (hunexpired : taskHasExpired r c.Now pod = some false) :
    Reconcile r c request =
      ⟨(reportIfRequired r c pod).1,
        [Call.Get request, Call.GetByGUID (pod.label LabelGUID)] ++
          (reportIfRequired r c pod).2.1,
        some (⟨false, GoInt.mul r.ttlSeconds Second⟩, none)⟩ := by
  have hexp' := hunexpired
  rw [← taskHasExpired_congr r _ c.Now pod (reportIfRequired_ttlSeconds r c pod)] at hexp'
  have httl := reportIfRequired_ttlSeconds r c pod
  rcases hrep : reportIfRequired r c pod with ⟨r1, reportCalls, rerr⟩
  rw [hrep] at hreport hexp' httl
  simp only at hreport hexp' httl
  subst hreport
  unfold Reconcile
  simp [hget, hterm, hjobs, hrep, hexp', hne, httl]

theorem taskContainerHasTerminated_of_status (pod : Pod) (status : ContainerStatus)
    (terminated : ContainerStateTerminated)
    (hstatus : getTaskContainerStatus pod = some status)
    (hterminated : status.State.Terminated = some terminated) :
    taskContainerHasTerminated pod = true := by
  simp [taskContainerHasTerminated, hstatus, hterminated]

theorem taskHasExpired_of_status (r : Reconciler) (now : Time) (pod : Pod)
    (status : ContainerStatus) (terminated : ContainerStateTerminated)
    (hstatus : getTaskContainerStatus pod = some status)
    (hterminated : status.State.Terminated = some terminated)
    (hrange : -9223372036 ≤ r.ttlSeconds.val ∧ r.ttlSeconds.val ≤ 9223372036) :
    taskHasExpired r now pod =
      some (decide (terminated.FinishedAt < now - r.ttlSeconds.val * 1000000000)) := by
  have hneg : (GoInt.neg r.ttlSeconds).val = -r.ttlSeconds.val :=
    wrapInt64_val_of_inRange (-r.ttlSeconds.val) (by omega)
  have hmul : (GoInt.mul (GoInt.neg r.ttlSeconds) Second).val =
      -r.ttlSeconds.val * 1000000000 := by
    unfold GoInt.mul
    rw [hneg]
    exact wrapInt64_val_of_inRange (-r.ttlSeconds.val * 1000000000) (by omega)
  simp only [taskHasExpired, hstatus, hterminated, Time.Add, Time.Before, hmul]
  rw [neg_mul, ← sub_eq_add_neg]

theorem ttl_duration_val (ttlSeconds : GoInt)
    (hrange : -9223372036 ≤ ttlSeconds.val ∧ ttlSeconds.val ≤ 9223372036) :
    (GoInt.mul ttlSeconds Second).val = ttlSeconds.val * 1000000000 := by
  unfold GoInt.mul
  exact wrapInt64_val_of_inRange (ttlSeconds.val * 1000000000) (by omega)

theorem expiry_offset_ge (ttlSeconds : GoInt) (hlower : -9223372036 ≤ ttlSeconds.val) :
    -ttlSeconds.val * 1000000000 ≤ (GoInt.mul (GoInt.neg ttlSeconds) Second).val := by
  have hupper := ttlSeconds.property.2
  have hneg : (GoInt.neg ttlSeconds).val = -ttlSeconds.val :=
    wrapInt64_val_of_inRange (-ttlSeconds.val) (by omega)
  unfold GoInt.mul
  rw [hneg]
  show -ttlSeconds.val * 1000000000 ≤ (wrapInt64 (-ttlSeconds.val * 1000000000)).val
  simp only [wrapInt64]
  omega

/-- C5, as the code has it. Expired task, deletion succeeds: provided
ttlSeconds is at least -9223372036, so that the negated TTL in nanoseconds does
not exceed the largest 64 bit Duration, for every terminated pod with at least
one matching job, whose report step returns no error and whose task container
FinishedAt is strictly before now - ttlSeconds, Reconcile invokes
Deleter.Delete exactly once, with the GUID label value of the pod; if Delete
returns no error then Reconcile returns an empty result and nil error, and
afterwards neither tracking map has an entry for that GUID. There is no upper
bound on ttlSeconds: when a large TTL wraps, the expiry instant the code
computes is later than now - ttlSeconds, never earlier. -/
theorem Reconcile_expired_deletion (r : Reconciler) (c : Collaborators) (request : Request)
    (pod : Pod) (jobs : List Job) (status : ContainerStatus)
    (terminated : ContainerStateTerminated)
    (hget : c.Get request = .ok pod)
    (hstatus : getTaskContainerStatus pod = some status)
    (hterminated : status.State.Terminated = some terminated)
    (hjobs : c.GetByGUID (pod.label LabelGUID) = .ok jobs)
    (hne : jobs ≠ [])
    (hreport : (reportIfRequired r c pod).2.2 = none)
    (hlower : -9223372036 ≤ r.ttlSeconds.val)
    (hexpired : terminated.FinishedAt < c.Now - r.ttlSeconds.val * 1000000000) :
    (Reconcile r c request).calls.filter Call.isDelete =
      [Call.Delete (pod.label LabelGUID) (c.Delete (pod.label LabelGUID)).2] ∧
    ((c.Delete (pod.label LabelGUID)).2 = none →
      (Reconcile r c request).ret = some (Result.empty, none) ∧
      (Reconcile r c request).self.callbackRetries (pod.label LabelGUID) = none ∧
      (Reconcile r c request).self.reported (pod.label LabelGUID) = none) := by
  have hterm := taskContainerHasTerminated_of_status pod status terminated hstatus hterminated
  have hle : c.Now - r.ttlSeconds.val * 1000000000 ≤
      c.Now + (GoInt.mul (GoInt.neg r.ttlSeconds) Second).val := by
    rw [sub_eq_add_neg, ← neg_mul]
    exact add_le_add_left (expiry_offset_ge r.ttlSeconds hlower) c.Now
  have hlt : terminated.FinishedAt <
      c.Now + (GoInt.mul (GoInt.neg r.ttlSeconds) Second).val := lt_of_lt_of_le hexpired hle
  have hexp : taskHasExpired r c.Now pod = some true := by
    simp only [taskHasExpired, hstatus, hterminated, Time.Add, Time.Before]
    simp [hlt]
  rw [Reconcile_expired r c request pod jobs hget hterm hjobs hne hreport hexp]
  constructor
  · simp only [List.filter_append, reportIfRequired_no_delete]
    simp [Call.isDelete]
  · intro hd
    simp [hd, afterDelete, GoMap.delete]

theorem Reconcile_expired_deletion_witness :
    (Reconcile limitThree (world 10000000000 none none) finishedRequest).calls.filter
        Call.isDelete = [Call.Delete "guid-1" none] ∧
    (Reconcile limitThree (world 10000000000 none none) finishedRequest).self.reported
      "guid-1" = none ∧
    ((1000 : Int) < 20000000000000000000 - hugeTTL.ttlSeconds.val * 1000000000 ∧
      (Reconcile hugeTTL (world 20000000000000000000 none none) finishedRequest).calls.filter
        Call.isDelete = [Call.Delete "guid-1" none]) :=
  ⟨(Reconcile_expired_deletion limitThree (world 10000000000 none none) finishedRequest
      finishedPod [⟨"task-job"⟩] ⟨OPIContainerName, ⟨some ⟨1000⟩⟩⟩ ⟨1000⟩ rfl (by decide) rfl
      rfl (by decide) (by decide) (by decide) (by decide)).1,
    ((Reconcile_expired_deletion limitThree (world 10000000000 none none) finishedRequest
      finishedPod [⟨"task-job"⟩] ⟨OPIContainerName, ⟨some ⟨1000⟩⟩⟩ ⟨1000⟩ rfl (by decide) rfl
      rfl (by decide) (by decide) (by decide) (by decide)).2 rfl).2.2,
    by decide,
    (Reconcile_expired_deletion hugeTTL (world 20000000000000000000 none none) finishedRequest
      finishedPod [⟨"task-job"⟩] ⟨OPIContainerName, ⟨some ⟨1000⟩⟩⟩ ⟨1000⟩ rfl (by decide) rfl
      rfl (by decide) (by decide) (by decide) (by decide)).1⟩

/-- C5 fails as stated. With ttlSeconds = -10000000000 the negated TTL in
nanoseconds overflows the 64 bit Duration: the task container finished at
instant 1000, strictly before now - ttlSeconds for now = 2000, and yet Reconcile
does not invoke Deleter.Delete. -/
theorem expiry_wraps_for_negative_ttl :
    (1000 : Int) < 2000 - hugeNegativeTTL.ttlSeconds.val * 1000000000 ∧
    (reportIfRequired hugeNegativeTTL (world 2000 none none) finishedPod).2.2 = none ∧
    (Reconcile hugeNegativeTTL (world 2000 none none) finishedRequest).calls =
      [Call.Get finishedRequest, Call.GetByGUID "guid-1", Call.Report finishedPod none] := by
  decide

/-- C6, as the code has it. Unexpired task: provided ttlSeconds lies between
-9223372036 and 9223372036, so that the TTL in nanoseconds fits a 64 bit
Duration, for every terminated pod with at least one matching job whose report
step returns no error and whose task container FinishedAt is not strictly
before now - ttlSeconds, Reconcile returns nil error and a result whose
RequeueAfter is exactly ttlSeconds seconds, does not invoke Deleter.Delete, and
clears neither the retry count nor the reported flag: the retry counts are
unchanged and the reported map is unchanged or has the flag of the GUID set. -/
theorem Reconcile_unexpired_requeue (r : Reconciler) (c : Collaborators) (request : Request)
    (pod : Pod) (jobs : List Job) (status : ContainerStatus)
    (terminated : ContainerStateTerminated)
    (hget : c.Get request = .ok pod)
    (hstatus : getTaskContainerStatus pod = some status)
    (hterminated : status.State.Terminated = some terminated)
    (hjobs : c.GetByGUID (pod.label LabelGUID) = .ok jobs)
    (hne : jobs ≠ [])
    (hreport : (reportIfRequired r c pod).2.2 = none)
    (hrange : -9223372036 ≤ r.ttlSeconds.val ∧ r.ttlSeconds.val ≤ 9223372036)
    (hunexpired : ¬ terminated.FinishedAt < c.Now - r.ttlSeconds.val * 1000000000) :
    (∃ requeueAfter : Duration,
      (Reconcile r c request).ret = some (⟨false, requeueAfter⟩, none) ∧
      requeueAfter.val = r.ttlSeconds.val * 1000000000) ∧
    (Reconcile r c request).calls.filter Call.isDelete = [] ∧
    (Reconcile r c request).self.callbackRetries = r.callbackRetries ∧
    ((Reconcile r c request).self.reported = r.reported ∨
      (Reconcile r c request).self.reported = r.reported.set (pod.label LabelGUID) true) := by
  have hterm := taskContainerHasTerminated_of_status pod status terminated hstatus hterminated
  have hexp : taskHasExpired r c.Now pod = some false := by
    rw [taskHasExpired_of_status r c.Now pod status terminated hstatus hterminated hrange]
    simp [hunexpired]
  rw [Reconcile_unexpired r c request pod jobs hget hterm hjobs hne hreport hexp]
  refine ⟨⟨_, rfl, ttl_duration_val r.ttlSeconds hrange⟩, ?_,
    (reportIfRequired_no_error r c pod hreport).1, (reportIfRequired_no_error r c pod hreport).2⟩
  simp only [List.filter_append, reportIfRequired_no_delete]
  simp [Call.isDelete]

theorem Reconcile_unexpired_requeue_witness :
    ∃ requeueAfter : Duration,
      (Reconcile limitThree (world 2000 none none) finishedRequest).ret =
        some (⟨false, requeueAfter⟩, none) ∧
      requeueAfter.val = limitThree.ttlSeconds.val * 1000000000 :=
  (Reconcile_unexpired_requeue limitThree (world 2000 none none) finishedRequest
    finishedPod [⟨"task-job"⟩] ⟨OPIContainerName, ⟨some ⟨1000⟩⟩⟩ ⟨1000⟩ rfl (by decide) rfl
    rfl (by decide) (by decide) (by decide) (by decide)).1

/-- C6 fails as stated. With ttlSeconds = 10000000000 the TTL in nanoseconds
overflows the 64 bit Duration: the task container finished at instant 1000,
which is not before now - ttlSeconds for now = 2000, and yet Reconcile invokes
Deleter.Delete and asks for no requeue. -/
theorem requeue_wraps_for_huge_ttl :
    ¬ ((1000 : Int) < 2000 - hugeTTL.ttlSeconds.val * 1000000000) ∧
    (reportIfRequired hugeTTL (world 2000 none none) finishedPod).2.2 = none ∧
    (Reconcile hugeTTL (world 2000 none none) finishedRequest).calls =
      [Call.Get finishedRequest, Call.GetByGUID "guid-1", Call.Report finishedPod none,
        Call.Delete "guid-1" none] ∧
    (Reconcile hugeTTL (world 2000 none none) finishedRequest).ret =
      some (Result.empty, none) ∧
    (GoInt.mul hugeTTL.ttlSeconds Second).val = -8446744073709551616 := by
  decide

/-- C7, as the code has it. Expired task, deletion fails: for every terminated
pod with at least one matching job whose report step returns no error, whose
task has expired and whose Deleter.Delete call returns an error e, Reconcile
returns exactly e with an empty result, and the retry count of the GUID has
already been cleared. The reported flag is not cleared: the reported map is
what the report step left, that is unchanged or with the flag of the GUID
set. -/
theorem Reconcile_deletion_failure (r : Reconciler) (c : Collaborators) (request : Request)
    (pod : Pod) (jobs : List Job) (e : Error)
    (hget : c.Get request = .ok pod)
    (hterm : taskContainerHasTerminated pod = true)
    (hjobs : c.GetByGUID (pod.label LabelGUID) = .ok jobs)
    (hne : jobs ≠ [])
    (hreport : (reportIfRequired r c pod).2.2 = none)
    (hexpired : taskHasExpired r c.Now pod = some true)
    (hdelete : (c.Delete (pod.label LabelGUID)).2 = some e) :
    (Reconcile r c request).ret = some (Result.empty, some e) ∧
    (Reconcile r c request).self.callbackRetries (pod.label LabelGUID) = none ∧
    ((Reconcile r c request).self.reported = r.reported ∨
      (Reconcile r c request).self.reported = r.reported.set (pod.label LabelGUID) true) := by
  rw [Reconcile_expired r c request pod jobs hget hterm hjobs hne hreport hexpired]
  refine ⟨by simp [hdelete], by simp [afterDelete, GoMap.delete], ?_⟩
  simp only [afterDelete, hdelete, reduceCtorEq, if_false]
  exact (reportIfRequired_no_error r c pod hreport).2

theorem Reconcile_deletion_failure_witness :
    (Reconcile limitThree (world 10000000000 none (some boom)) finishedRequest).ret =
      some (Result.empty, some boom) ∧
    (Reconcile limitThree (world 10000000000 none (some boom))
      finishedRequest).self.callbackRetries "guid-1" = none :=
  ⟨(Reconcile_deletion_failure limitThree (world 10000000000 none (some boom)) finishedRequest
      finishedPod [⟨"task-job"⟩] boom rfl (by decide) rfl (by decide) (by decide) (by decide)
      rfl).1,
    (Reconcile_deletion_failure limitThree (world 10000000000 none (some boom)) finishedRequest
      finishedPod [⟨"task-job"⟩] boom rfl (by decide) rfl (by decide) (by decide) (by decide)
      rfl).2.1⟩

/-- C7 fails as stated. The task container finished at instant 1000, the TTL is
one second and now is 10000000000: the task has expired. The report succeeds
and Deleter.Delete fails: Reconcile returns the error of Delete and the
reported flag of the GUID is still set afterwards. -/
theorem reported_flag_kept_when_deletion_fails :
    taskHasExpired limitThree 10000000000 finishedPod = some true ∧
    (Reconcile limitThree (world 10000000000 none (some boom)) finishedRequest).calls =
      [Call.Get finishedRequest, Call.GetByGUID "guid-1", Call.Report finishedPod none,
        Call.Delete "guid-1" (some boom)] ∧
    (Reconcile limitThree (world 10000000000 none (some boom)) finishedRequest).ret =
      some (Result.empty, some boom) ∧
    (Reconcile limitThree (world 10000000000 none (some boom)) finishedRequest).self.reported
      "guid-1" = some true := by
  decide

/-! ## Guards before the report step -/

/-- C9. Running task is a no-op: for every pod whose task container status has
no terminated state, or which has no status entry for the task container at
all, Reconcile returns an empty result and nil error, calls nothing but the pod
fetch (so none of JobsClient.GetByGUID, Reporter.Report, Deleter.Delete), and
leaves both tracking maps unchanged. -/
theorem Reconcile_running_task (r : Reconciler) (c : Collaborators) (request : Request)
    (pod : Pod)
    (hget : c.Get request = .ok pod)
    (hrunning : getTaskContainerStatus pod = none ∨
      ∃ status, getTaskContainerStatus pod = some status ∧ status.State.Terminated = none) :
    (Reconcile r c request).ret = some (Result.empty, none) ∧
    (Reconcile r c request).calls = [Call.Get request] ∧
    (Reconcile r c request).self.callbackRetries = r.callbackRetries ∧
    (Reconcile r c request).self.reported = r.reported := by
  have hterm : taskContainerHasTerminated pod = false := by
    rcases hrunning with h | ⟨status, h, hnone⟩
    · simp [taskContainerHasTerminated, h]
    · simp [taskContainerHasTerminated, h, hnone]
  have hR : Reconcile r c request = ⟨r, [Call.Get request], some (Result.empty, none)⟩ := by
    unfold Reconcile
    simp [hget, hterm]
  rw [hR]
  exact ⟨rfl, rfl, rfl, rfl⟩

theorem Reconcile_running_task_witness :
    (Reconcile limitThree runningWorld finishedRequest).ret = some (Result.empty, none) ∧
    (Reconcile limitThree runningWorld finishedRequest).calls = [Call.Get finishedRequest] :=
  ⟨(Reconcile_running_task limitThree runningWorld finishedRequest runningPod rfl
      (Or.inr ⟨⟨OPIContainerName, ⟨none⟩⟩, by decide, rfl⟩)).1,
    (Reconcile_running_task limitThree runningWorld finishedRequest runningPod rfl
      (Or.inr ⟨⟨OPIContainerName, ⟨none⟩⟩, by decide, rfl⟩)).2.1⟩

/-- C10. Absent resources are treated as converged: if the pod fetch fails with
a not-found error, or the pod is terminated but JobsClient.GetByGUID returns an
empty list without error, Reconcile returns an empty result and nil error,
invokes neither Reporter.Report nor Deleter.Delete, and leaves both tracking
maps unchanged. -/
theorem Reconcile_absent_resources (r : Reconciler) (c : Collaborators) (request : Request)
    (habsent : (∃ err, c.Get request = .error err ∧ err.notFound = true) ∨
      (∃ pod, c.Get request = .ok pod ∧ taskContainerHasTerminated pod = true ∧
        c.GetByGUID (pod.label LabelGUID) = .ok [])) :
    (Reconcile r c request).ret = some (Result.empty, none) ∧
    (Reconcile r c request).calls.filter Call.isReport = [] ∧
    (Reconcile r c request).calls.filter Call.isDelete = [] ∧
    (Reconcile r c request).self.callbackRetries = r.callbackRetries ∧
    (Reconcile r c request).self.reported = r.reported := by
  rcases habsent with ⟨err, hget, hnf⟩ | ⟨pod, hget, hterm, hjobs⟩
  · have hR : Reconcile r c request = ⟨r, [Call.Get request], some (Result.empty, none)⟩ := by
      unfold Reconcile
      simp [hget, hnf]
    rw [hR]
    exact ⟨rfl, rfl, rfl, rfl, rfl⟩
  · have hR : Reconcile r c request =
        ⟨r, [Call.Get request, Call.GetByGUID (pod.label LabelGUID)],
          some (Result.empty, none)⟩ := by
      unfold Reconcile
      simp [hget, hterm, hjobs]
    rw [hR]
    exact ⟨rfl, rfl, rfl, rfl, rfl⟩

theorem Reconcile_absent_resources_witness :
    (Reconcile limitThree goneWorld finishedRequest).ret = some (Result.empty, none) ∧
    (Reconcile limitThree goneWorld finishedRequest).calls.filter Call.isDelete = [] :=
  ⟨(Reconcile_absent_resources limitThree goneWorld finishedRequest
      (Or.inl ⟨⟨"pods \"task-pod\" not found", true⟩, rfl, rfl⟩)).1,
    (Reconcile_absent_resources limitThree goneWorld finishedRequest
      (Or.inl ⟨⟨"pods \"task-pod\" not found", true⟩, rfl, rfl⟩)).2.2.1⟩

/-! ## Witnesses of the report step and of the retry cap -/

theorem reportIfRequired_guard_witness :
    (reportIfRequired limitThree (world 2000 none none) finishedPod).2.1 =
      [Call.Report finishedPod none] :=
  (reportIfRequired_guard limitThree (world 2000 none none) finishedPod).1 (by decide)

theorem Reconcile_report_failure_witness :
    taskHasExpired limitThree 10000000000 finishedPod = some true ∧
    (Reconcile limitThree (world 10000000000 (some boom) none) finishedRequest).ret =
      some (Result.empty, some boom) ∧
    (Reconcile limitThree (world 10000000000 (some boom) none)
      finishedRequest).self.callbackRetries "guid-1" = some ⟨1, by omega⟩ :=
  ⟨by decide,
    (Reconcile_report_failure limitThree (world 10000000000 (some boom) none) finishedRequest
      finishedPod [⟨"task-job"⟩] boom rfl (by decide) rfl (by decide) (by decide) (by decide)
      rfl).1,
    (Reconcile_report_failure limitThree (world 10000000000 (some boom) none) finishedRequest
      finishedPod [⟨"task-job"⟩] boom rfl (by decide) rfl (by decide) (by decide) (by decide)
      rfl).2.2.2.1 rfl⟩

theorem retry_count_capped_witness :
    ((reconcileAll (NewReconciler ⟨1, by omega⟩ ⟨1, by omega⟩)
        [(world 2000 (some boom) none, finishedRequest),
          (world 3000 (some boom) none, finishedRequest)]).1.callbackRetries.index
        0 "guid-1").val ≤ 1 :=
  retry_count_capped ⟨1, by omega⟩ ⟨1, by omega⟩ (by decide)
    [(world 2000 (some boom) none, finishedRequest),
      (world 3000 (some boom) none, finishedRequest)] "guid-1"

/-! ## Nil dereference and frame -/

theorem taskHasExpired_of_terminated (pod : Pod) (h : taskContainerHasTerminated pod = true) :
    ∃ status terminated, getTaskContainerStatus pod = some status ∧
      status.State.Terminated = some terminated ∧
      ∀ (r : Reconciler) (now : Time), taskHasExpired r now pod =
        some (Time.Before terminated.FinishedAt
          (Time.Add now (GoInt.mul (GoInt.neg r.ttlSeconds) Second))) := by
  cases hstatus : getTaskContainerStatus pod with
  | none => simp [taskContainerHasTerminated, hstatus] at h
  | some status =>
    cases hterminated : status.State.Terminated with
    | none => simp [taskContainerHasTerminated, hstatus, hterminated] at h
    | some terminated =>
      refine ⟨status, terminated, rfl, hterminated, ?_⟩
      intro r now
      simp only [taskHasExpired, hstatus, hterminated]

theorem Reconcile_past_guard (r : Reconciler) (c : Collaborators) (request : Request)
    (h : (Reconcile r c request).calls ≠ [Call.Get request]) :
    ∃ pod, c.Get request = .ok pod ∧ taskContainerHasTerminated pod = true := by
  unfold Reconcile at h
  cases hget : c.Get request with
  | error err =>
    rw [hget] at h
    by_cases hnf : err.notFound <;> simp [hnf] at h
  | ok pod =>
    by_cases hterm : taskContainerHasTerminated pod
    · exact ⟨pod, rfl, hterm⟩
    · rw [hget] at h
      simp [hterm] at h

theorem Reconcile_ret_ne_none (r : Reconciler) (c : Collaborators) (request : Request) :
    (Reconcile r c request).ret ≠ none := by
  unfold Reconcile
  cases hget : c.Get request with
  | error err => by_cases hnf : err.notFound <;> simp [hnf]
  | ok pod =>
    by_cases hterm : taskContainerHasTerminated pod
    · cases hjobs : c.GetByGUID (pod.label LabelGUID) with
      | error err => simp [hterm, hjobs]
      | ok jobs =>
        by_cases hlen : jobs.length = 0
        · simp [hterm, hjobs, hlen]
        · have hne : jobs ≠ [] := by simpa using hlen
          rcases hrep : reportIfRequired r c pod with ⟨r1, reportCalls, rerr⟩
          cases rerr with
          | some e => simp [hterm, hjobs, hne, hrep]
          | none =>
            obtain ⟨status, terminated, _, _, hexp⟩ := taskHasExpired_of_terminated pod hterm
            simp only [hterm, hjobs, hrep, hexp r1 c.Now]
            cases Time.Before terminated.FinishedAt
              (Time.Add c.Now (GoInt.mul (GoInt.neg r1.ttlSeconds) Second)) <;> simp [hne]
    · simp [hterm]

/-- C17. Expiry check never dereferences a missing terminated state inside
Reconcile. (1) taskHasExpired has no nil check: on a pod whose task container
status has no terminated state it dereferences nil. (2) Reconcile never ends
in a nil dereference, whatever the pod and the collaborators. (3) Whenever
Reconcile goes past the pod fetch, as it must to reach the taskHasExpired
call, the fetched pod has a task container status whose Terminated state is
present, and taskHasExpired on that pod takes neither the missing status
branch nor the nil dereference: it returns the comparison of FinishedAt with
the expiry instant. -/
theorem Reconcile_expiry_never_dereferences_nil (r : Reconciler) (c : Collaborators)
    (request : Request) :
    (∀ pod status now, getTaskContainerStatus pod = some status →
      status.State.Terminated = none → taskHasExpired r now pod = none) ∧
    (Reconcile r c request).ret ≠ none ∧
    ((Reconcile r c request).calls ≠ [Call.Get request] →
      ∃ pod status terminated, c.Get request = .ok pod ∧
        getTaskContainerStatus pod = some status ∧
        status.State.Terminated = some terminated ∧
        ∀ (r' : Reconciler) (now : Time), taskHasExpired r' now pod =
          some (Time.Before terminated.FinishedAt
            (Time.Add now (GoInt.mul (GoInt.neg r'.ttlSeconds) Second)))) := by
  refine ⟨?_, Reconcile_ret_ne_none r c request, ?_⟩
  · intro pod status now hstatus hnone
    simp only [taskHasExpired, hstatus, hnone]
  · intro hcalls
    obtain ⟨pod, hget, hterm⟩ := Reconcile_past_guard r c request hcalls
    obtain ⟨status, terminated, hstatus, hterminated, hexp⟩ :=
      taskHasExpired_of_terminated pod hterm
    exact ⟨pod, status, terminated, hget, hstatus, hterminated, hexp⟩

theorem Reconcile_expiry_never_dereferences_nil_witness :
    taskHasExpired limitThree 5000 runningPod = none ∧
    (Reconcile limitThree runningWorld finishedRequest).ret ≠ none ∧
    ∃ pod status terminated, (world 2000 none none).Get finishedRequest = .ok pod ∧
      getTaskContainerStatus pod = some status ∧
      status.State.Terminated = some terminated ∧
      ∀ (r' : Reconciler) (now : Time), taskHasExpired r' now pod =
        some (Time.Before terminated.FinishedAt
          (Time.Add now (GoInt.mul (GoInt.neg r'.ttlSeconds) Second))) :=
  ⟨(Reconcile_expiry_never_dereferences_nil limitThree runningWorld finishedRequest).1
      runningPod ⟨OPIContainerName, ⟨none⟩⟩ 5000 (by decide) rfl,
    (Reconcile_expiry_never_dereferences_nil limitThree runningWorld finishedRequest).2.1,
    (Reconcile_expiry_never_dereferences_nil limitThree (world 2000 none none)
      finishedRequest).2.2 (by decide)⟩

theorem reportIfRequired_other_guid (r : Reconciler) (c : Collaborators) (pod : Pod)
    (other : String) (hother : other ≠ pod.label LabelGUID) :
    (reportIfRequired r c pod).1.callbackRetries other = r.callbackRetries other ∧
    (reportIfRequired r c pod).1.reported other = r.reported other := by
  rcases reportIfRequired_cases r c pod with ⟨h, _⟩ | ⟨_, ⟨e, _, h⟩ | ⟨_, h⟩⟩
  · rw [h]; exact ⟨rfl, rfl⟩
  · rw [h]; exact ⟨by simp [GoMap.set, hother], rfl⟩
  · rw [h]; exact ⟨rfl, by simp [GoMap.set, hother]⟩

/-- C18. Per-GUID isolation: for every Reconcile invocation on a pod whose GUID
label is g and for every other GUID h different from g, the entries of the
retry-count map and of the reported map for h are the same after the
invocation as before, whatever the collaborators return. -/
theorem Reconcile_other_guid_untouched (r : Reconciler) (c : Collaborators)
    (request : Request) (pod : Pod) (other : String)
    (hget : c.Get request = .ok pod)
    (hother : other ≠ pod.label LabelGUID) :
    (Reconcile r c request).self.callbackRetries other = r.callbackRetries other ∧
    (Reconcile r c request).self.reported other = r.reported other := by
  rcases Reconcile_cases r c request with
    ⟨h, _⟩ | ⟨_, h, _⟩ | ⟨pod', hget', h, _⟩ | ⟨pod', hget', _, _, h, _⟩
  · rw [h]; exact ⟨rfl, rfl⟩
  · rw [h]; exact ⟨rfl, rfl⟩
  · rw [hget] at hget'
    injection hget' with hpod
    subst hpod
    rw [h]
    exact reportIfRequired_other_guid r c pod other hother
  · rw [hget] at hget'
    injection hget' with hpod
    subst hpod
    rw [h]
    obtain ⟨h1, h2⟩ := reportIfRequired_other_guid r c pod other hother
    constructor
    · simp only [afterDelete, GoMap.delete, if_neg hother]
      exact h1
    · simp only [afterDelete]
      split_ifs
      · simp only [GoMap.delete, if_neg hother]
        exact h2
      · exact h2

theorem Reconcile_other_guid_untouched_witness :
    (Reconcile (reconcileAll limitThree [(world 2000 none none, finishedRequest)]).1
        (world 10000000000 none none) finishedRequest).self.reported "guid-2" =
      (reconcileAll limitThree [(world 2000 none none, finishedRequest)]).1.reported "guid-2" :=
  (Reconcile_other_guid_untouched
    (reconcileAll limitThree [(world 2000 none none, finishedRequest)]).1
    (world 10000000000 none none) finishedRequest finishedPod "guid-2" rfl (by decide)).2

/-! ## Admission webhook -/

namespace Webhook

theorem afterFinalDash_no_dash (name : List Char) (h : '-' ∉ name) :
    afterFinalDash name = none := by
  induction name with
  | nil => rfl
  | cons ch rest ih =>
    have hrest : '-' ∉ rest := fun hmem => h (List.mem_cons_of_mem _ hmem)
    have hch : ¬ ch = '-' := fun heq => h (by rw [heq]; exact List.mem_cons_self _ _)
    simp only [afterFinalDash, ih hrest, if_neg hch]

theorem afterFinalDash_append (stem suffix : List Char) (h : '-' ∉ suffix) :
    afterFinalDash (stem ++ '-' :: suffix) = some suffix := by
  induction stem with
  | nil =>
    simp only [List.nil_append, afterFinalDash, afterFinalDash_no_dash suffix h, if_true]
  | cons ch rest ih =>
    rw [List.cons_append]
    simp only [afterFinalDash, ih]

theorem ParseAppIndex_malformed (podName : String)
    (hmalformed : '-' ∉ podName.data ∨
      ∃ stem suffix, podName.data = stem ++ '-' :: suffix ∧ '-' ∉ suffix ∧
        (suffix = [] ∨ ∃ ch ∈ suffix, ch.isDigit = false)) :
    ∃ err, ParseAppIndex podName = .error err := by
  unfold ParseAppIndex
  rcases hmalformed with hnodash | ⟨stem, suffix, hname, hnodash, hbad⟩
  · rw [afterFinalDash_no_dash _ hnodash]
    exact ⟨_, rfl⟩
  · rw [hname, afterFinalDash_append stem suffix hnodash]
    simp only
    rw [dif_neg]
    · exact ⟨_, rfl⟩
    · rintro ⟨hne, hall, _⟩
      rcases hbad with hempty | ⟨ch, hmem, hdigit⟩
      · exact hne hempty
      · rw [List.all_eq_true] at hall
        rw [hall ch hmem] at hdigit
        cases hdigit

theorem injectContainers_found (cfInstanceVar : EnvVar) (after : List Container)
    (opi : Container) (hname : opi.Name = OPIContainerName) :
    ∀ before : List Container, (∀ c ∈ before, c.Name ≠ OPIContainerName) →
      injectContainers cfInstanceVar (before ++ opi :: after) =
        some (before ++ ⟨opi.Name, opi.Env ++ [cfInstanceVar], opi.Other⟩ :: after) := by
  intro before
  induction before with
  | nil =>
    intro _
    simp only [List.nil_append, injectContainers, if_pos hname]
  | cons c rest ih =>
    intro hfirst
    have hc : ¬ c.Name = OPIContainerName := hfirst c (List.mem_cons_self _ _)
    have hrest : ∀ c' ∈ rest, c'.Name ≠ OPIContainerName :=
      fun c' hmem => hfirst c' (List.mem_cons_of_mem _ hmem)
    rw [List.cons_append]
    simp only [injectContainers, if_neg hc, ih hrest, Option.map_some', List.cons_append]

theorem injectContainers_missing (cfInstanceVar : EnvVar) (containers : List Container)
    (hnone : ∀ c ∈ containers, c.Name ≠ OPIContainerName) :
    injectContainers cfInstanceVar containers = none := by
  induction containers with
  | nil => rfl
  | cons c rest ih =>
    have hc : ¬ c.Name = OPIContainerName := hnone c (List.mem_cons_self _ _)
    have hrest : ∀ c' ∈ rest, c'.Name ≠ OPIContainerName :=
      fun c' hmem => hnone c' (List.mem_cons_of_mem _ hmem)
    simp only [injectContainers, if_neg hc, ih hrest, Option.map_none']

/-- C11. Instance-index injection: for every pod whose name parses
(ParseAppIndex, the number after the final dash) to an integer n and which has a
container named opi, injectInstanceIndex succeeds and the resulting pod is the
input pod except that the first container named opi has its old environment
followed by the single entry CF_INSTANCE_INDEX whose value is the base 10
string of n, which therefore sits at index len(old environment); the entries
before it, every other container and every other pod field are as they
were. -/
theorem injectInstanceIndex_appends (pod : Pod) (n : GoInt) (before after : List Container)
    (opi : Container)
    (hparse : ParseAppIndex pod.Name = .ok n)
    (hcontainers : pod.Containers = before ++ opi :: after)
    (hfirst : ∀ c ∈ before, c.Name ≠ OPIContainerName)
    (hname : opi.Name = OPIContainerName) :
    injectInstanceIndex pod =
      .ok ⟨pod.Name, pod.Namespace,
        before ++ ⟨opi.Name, opi.Env ++ [⟨EnvCFInstanceIndex, Itoa n, none⟩], opi.Other⟩ :: after,
        pod.Other⟩ ∧
    (opi.Env ++ [(⟨EnvCFInstanceIndex, Itoa n, none⟩ : EnvVar)])[opi.Env.length]? =
      some ⟨EnvCFInstanceIndex, Itoa n, none⟩ ∧
    (opi.Env ++ [(⟨EnvCFInstanceIndex, Itoa n, none⟩ : EnvVar)]).take opi.Env.length =
      opi.Env := by
  refine ⟨?_, by simp, by simp⟩
  unfold injectInstanceIndex
  rw [hparse, hcontainers]
  simp only [injectContainers_found _ after opi hname before hfirst]

theorem injectInstanceIndex_appends_witness :
    injectInstanceIndex (testPod "some-app-instance-3") =
      .ok ⟨"some-app-instance-3", "",
        [⟨"opi", [⟨"FOO", "foo", none⟩, ⟨"BAR", "bar", none⟩,
          ⟨"CF_INSTANCE_INDEX", "3", none⟩], ""⟩], ""⟩ ∧
    ([⟨"FOO", "foo", none⟩, ⟨"BAR", "bar", none⟩,
      (⟨"CF_INSTANCE_INDEX", "3", none⟩ : EnvVar)])[2]? =
      some ⟨"CF_INSTANCE_INDEX", "3", none⟩ :=
  ⟨(injectInstanceIndex_appends (testPod "some-app-instance-3") ⟨3, by omega⟩ [] []
      ⟨"opi", [⟨"FOO", "foo", none⟩, ⟨"BAR", "bar", none⟩], ""⟩ rfl rfl
      (fun _ h => absurd h (List.not_mem_nil _)) rfl).1,
    (injectInstanceIndex_appends (testPod "some-app-instance-3") ⟨3, by omega⟩ [] []
      ⟨"opi", [⟨"FOO", "foo", none⟩, ⟨"BAR", "bar", none⟩], ""⟩ rfl rfl
      (fun _ h => absurd h (List.not_mem_nil _)) rfl).2.1⟩

/-- C12. Malformed pod name is rejected with a client error: for every Create
request whose decoded pod name has no dash (the empty name included), has an
empty suffix after the final dash, or has a suffix after the final dash with a
character that is not a decimal digit, Handle returns a response that is not
allowed, has status code 400 and carries no patches, having called nothing but
the decoder. -/
theorem Handle_malformed_name (lib : Library) (req : AdmissionRequest) (pod : Pod)
    (hcreate : req.Operation = Create)
    (hdecode : lib.Decode req = .ok pod)
    (hmalformed : '-' ∉ pod.Name.data ∨
      ∃ stem suffix, pod.Name.data = stem ++ '-' :: suffix ∧ '-' ∉ suffix ∧
        (suffix = [] ∨ ∃ ch ∈ suffix, ch.isDigit = false)) :
    (Handle lib req).1.Allowed = false ∧
    (∃ status, (Handle lib req).1.Result = some status ∧ status.Code = 400) ∧
    (Handle lib req).1.Patches = [] ∧
    (Handle lib req).2 = [LibraryCall.Decode req] := by
  obtain ⟨err, herr⟩ := ParseAppIndex_malformed pod.Name hmalformed
  have hH : Handle lib req =
      (admission.Errored 400 (Wrap err "failed to parse app index"),
        [LibraryCall.Decode req]) := by
    unfold Handle
    simp [hcreate, hdecode, injectInstanceIndex, herr]
  rw [hH]
  exact ⟨rfl, ⟨_, rfl, rfl⟩, rfl, rfl⟩

theorem Handle_malformed_name_witness :
    ((Handle (testLibrary (testPod "myinstance4")) ⟨Create, ""⟩).1.Allowed = false ∧
      (Handle (testLibrary (testPod "myinstance4")) ⟨Create, ""⟩).1.Patches = []) ∧
    ((Handle (testLibrary (testPod "")) ⟨Create, ""⟩).1.Allowed = false ∧
      (Handle (testLibrary (testPod "")) ⟨Create, ""⟩).1.Patches = []) ∧
    ((Handle (testLibrary (testPod "my-instance-four")) ⟨Create, ""⟩).1.Allowed = false ∧
      (Handle (testLibrary (testPod "my-instance-four")) ⟨Create, ""⟩).1.Patches = []) ∧
    ((Handle (testLibrary (testPod "my-instance-")) ⟨Create, ""⟩).1.Allowed = false ∧
      (Handle (testLibrary (testPod "my-instance-")) ⟨Create, ""⟩).1.Patches = []) :=
  ⟨⟨(Handle_malformed_name (testLibrary (testPod "myinstance4")) ⟨Create, ""⟩
        (testPod "myinstance4") rfl rfl (Or.inl (by decide))).1,
      (Handle_malformed_name (testLibrary (testPod "myinstance4")) ⟨Create, ""⟩
        (testPod "myinstance4") rfl rfl (Or.inl (by decide))).2.2.1⟩,
    ⟨(Handle_malformed_name (testLibrary (testPod "")) ⟨Create, ""⟩
        (testPod "") rfl rfl (Or.inl (by decide))).1,
      (Handle_malformed_name (testLibrary (testPod "")) ⟨Create, ""⟩
        (testPod "") rfl rfl (Or.inl (by decide))).2.2.1⟩,
    ⟨(Handle_malformed_name (testLibrary (testPod "my-instance-four")) ⟨Create, ""⟩
        (testPod "my-instance-four") rfl rfl
        (Or.inr ⟨"my-instance".data, "four".data, by decide, by decide,
          Or.inr ⟨'f', by decide, by decide⟩⟩)).1,
      (Handle_malformed_name (testLibrary (testPod "my-instance-four")) ⟨Create, ""⟩
        (testPod "my-instance-four") rfl rfl
        (Or.inr ⟨"my-instance".data, "four".data, by decide, by decide,
          Or.inr ⟨'f', by decide, by decide⟩⟩)).2.2.1⟩,
    ⟨(Handle_malformed_name (testLibrary (testPod "my-instance-")) ⟨Create, ""⟩
        (testPod "my-instance-") rfl rfl
        (Or.inr ⟨"my-instance".data, [], by decide, by decide, Or.inl rfl⟩)).1,
      (Handle_malformed_name (testLibrary (testPod "my-instance-")) ⟨Create, ""⟩
        (testPod "my-instance-") rfl rfl
        (Or.inr ⟨"my-instance".data, [], by decide, by decide, Or.inl rfl⟩)).2.2.1⟩⟩

/-- C13. Missing task container is rejected with a client error: for every
Create request whose decoded pod has a name that parses but no container named
opi, Handle returns a response that is not allowed, has status code 400, has
the message "no opi container found in pod", and carries no patches. -/
theorem Handle_missing_container (lib : Library) (req : AdmissionRequest) (pod : Pod)
    (n : GoInt)
    (hcreate : req.Operation = Create)
    (hdecode : lib.Decode req = .ok pod)
    (hparse : ParseAppIndex pod.Name = .ok n)
    (hnone : ∀ c ∈ pod.Containers, c.Name ≠ OPIContainerName) :
    (Handle lib req).1.Allowed = false ∧
    (Handle lib req).1.Result = some ⟨400, "", "no opi container found in pod"⟩ ∧
    (Handle lib req).1.Patches = [] := by
  have hH : Handle lib req =
      (admission.Errored 400 (errorsNew "no opi container found in pod"),
        [LibraryCall.Decode req]) := by
    unfold Handle
    simp [hcreate, hdecode, injectInstanceIndex, hparse,
      injectContainers_missing _ pod.Containers hnone]
  rw [hH]
  exact ⟨rfl, rfl, rfl⟩

theorem Handle_missing_container_witness :
    (Handle (testLibrary ⟨"some-app-instance-3", "", [⟨"ipo", [], ""⟩], ""⟩)
      ⟨Create, ""⟩).1.Result = some ⟨400, "", "no opi container found in pod"⟩ :=
  (Handle_missing_container (testLibrary ⟨"some-app-instance-3", "", [⟨"ipo", [], ""⟩], ""⟩)
    ⟨Create, ""⟩ ⟨"some-app-instance-3", "", [⟨"ipo", [], ""⟩], ""⟩ ⟨3, by omega⟩ rfl rfl rfl
    (by decide)).2.1

/-- C14. Non-Create operations are always allowed unmodified: for every
admission request whose operation is not Create and for every request body and
library behaviour, a decoder that fails included, Handle returns an allowed
response with status 200, reason "pod was already created" and no patches, and
makes no library call: the pod is not decoded. -/
theorem Handle_not_create (lib : Library) (req : AdmissionRequest)
    (hop : req.Operation ≠ Create) :
    (Handle lib req).1.Allowed = true ∧
    (Handle lib req).1.Result = some ⟨200, "pod was already created", ""⟩ ∧
    (Handle lib req).1.Patches = [] ∧
    (Handle lib req).2 = [] := by
  have hH : Handle lib req = (admission.Allowed "pod was already created", []) := by
    unfold Handle
    rw [if_pos hop]
  rw [hH]
  exact ⟨rfl, rfl, rfl, rfl⟩

theorem Handle_not_create_witness :
    (Handle brokenLibrary ⟨"UPDATE", "not a pod"⟩).1.Allowed = true ∧
    (Handle brokenLibrary ⟨"DELETE", ""⟩).2 = [] ∧
    (Handle (testLibrary (testPod "myinstance4")) ⟨"CONNECT", ""⟩).1.Result =
      some ⟨200, "pod was already created", ""⟩ :=
  ⟨(Handle_not_create brokenLibrary ⟨"UPDATE", "not a pod"⟩ (by decide)).1,
    (Handle_not_create brokenLibrary ⟨"DELETE", ""⟩ (by decide)).2.2.2,
    (Handle_not_create (testLibrary (testPod "myinstance4")) ⟨"CONNECT", ""⟩
      (by decide)).2.1⟩

end Webhook

/-! ## Task desirer -/

namespace Desirer

/-- C15, as the spec and the test have it. Desirer.Delete requires exactly one
match: for every guid, Delete lists jobs with the single label selector
"<staging-GUID label>=<guid>"; a listing error is returned verbatim with no
delete attempted; if the list has zero or more than one item it returns the
error "job with guid <guid> should have 1 instance, but it has: <count>" and
performs no delete; if the list has exactly one item it deletes that item by
its name and returns what the deletion returns: no error when the deletion
succeeds, the error of the deletion otherwise. -/
theorem Delete_requires_exactly_one (client : JobClient) (guid : String) :
    (∀ err, client.List (LabelStagingGUID ++ "=" ++ guid) = .error err →
      Delete client guid = ([JobCall.List (LabelStagingGUID ++ "=" ++ guid)], some err)) ∧
    (∀ jobs, client.List (LabelStagingGUID ++ "=" ++ guid) = .ok jobs → jobs.length ≠ 1 →
      Delete client guid =
        ([JobCall.List (LabelStagingGUID ++ "=" ++ guid)],
          some ⟨"job with guid " ++ guid ++ " should have 1 instance, but it has: " ++
            toString jobs.length, false⟩)) ∧
    (∀ job, client.List (LabelStagingGUID ++ "=" ++ guid) = .ok [job] →
      Delete client guid =
        ([JobCall.List (LabelStagingGUID ++ "=" ++ guid), JobCall.Delete job.Name],
          client.Delete job.Name) ∧
      (client.Delete job.Name = none → (Delete client guid).2 = none)) := by
  refine ⟨?_, ?_, ?_⟩
  · intro err hlist
    simp only [Delete, hlist]
  · intro jobs hlist hlen
    simp only [Delete, hlist]
    match jobs, hlen with
    | [], _ => rfl
    | [_], h => exact absurd rfl h
    | _ :: _ :: _, _ => rfl
  · intro job hlist
    have hD : Delete client guid =
        ([JobCall.List (LabelStagingGUID ++ "=" ++ guid), JobCall.Delete job.Name],
          client.Delete job.Name) := by
      simp only [Delete, hlist]
    refine ⟨hD, fun hdeleted => ?_⟩
    rw [hD, hdeleted]

theorem Delete_requires_exactly_one_witness :
    Delete (testClient [⟨"", "staging-job"⟩] none) "task-123" =
      ([JobCall.List (LabelStagingGUID ++ "=" ++ "task-123"), JobCall.Delete "staging-job"],
        none) ∧
    Delete (testClient [] none) "task-123" =
      ([JobCall.List (LabelStagingGUID ++ "=" ++ "task-123")],
        some ⟨"job with guid task-123 should have 1 instance, but it has: 0", false⟩) ∧
    Delete failingClient "task-123" =
      ([JobCall.List (LabelStagingGUID ++ "=" ++ "task-123")],
        some ⟨"failed to list jobs", false⟩) :=
  ⟨((Delete_requires_exactly_one (testClient [⟨"", "staging-job"⟩] none) "task-123").2.2
      ⟨"", "staging-job"⟩ rfl).1,
    (Delete_requires_exactly_one (testClient [] none) "task-123").2.1 [] rfl (by decide),
    (Delete_requires_exactly_one failingClient "task-123").1 ⟨"failed to list jobs", false⟩
      rfl⟩

/-- C15 fails as stated. The listing has exactly one item, `staging-job`, and
the job client fails to delete it: Delete calls the deletion by that name and
returns its error, not nil. -/
theorem Delete_returns_the_deletion_error :
    (testClient [⟨"", "staging-job"⟩] (some ⟨"failed to delete", false⟩)).List
      (LabelStagingGUID ++ "=" ++ "task-123") = .ok [⟨"", "staging-job"⟩] ∧
    Delete (testClient [⟨"", "staging-job"⟩] (some ⟨"failed to delete", false⟩)) "task-123" =
      ([JobCall.List (LabelStagingGUID ++ "=" ++ "task-123"), JobCall.Delete "staging-job"],
        some ⟨"failed to delete", false⟩) :=
  ⟨rfl, by decide⟩

/-- C16. Generated-name prefix rule: for every task, Desire and DesireStaging
create one job, whose GenerateName is "<GUID>-" when AppName or SpaceName is
empty and "<AppName>-<SpaceName>-" otherwise. -/
theorem Desire_generate_name (client : JobClient) (task : Task)
    (stagingTask : StagingTask) :
    (∃ job, (Desire client task).1 = [JobCall.Create job] ∧
      job.GenerateName =
        if task.AppName = "" ∨ task.SpaceName = "" then task.GUID ++ "-"
        else task.AppName ++ "-" ++ task.SpaceName ++ "-") ∧
    (∃ job, (DesireStaging client stagingTask).1 = [JobCall.Create job] ∧
      job.GenerateName =
        if stagingTask.Task.AppName = "" ∨ stagingTask.Task.SpaceName = "" then
          stagingTask.Task.GUID ++ "-"
        else stagingTask.Task.AppName ++ "-" ++ stagingTask.Task.SpaceName ++ "-") := by
  have hprefix : ∀ t : Task, namePrefix t =
      if t.AppName = "" ∨ t.SpaceName = "" then t.GUID ++ "-"
      else t.AppName ++ "-" ++ t.SpaceName ++ "-" := by
    intro t
    unfold namePrefix
    by_cases ha : t.AppName = "" <;> by_cases hs : t.SpaceName = "" <;> simp [ha, hs]
  constructor
  · refine ⟨⟨namePrefix task, ""⟩, ?_, hprefix task⟩
    cases h : client.Create ⟨namePrefix task, ""⟩ <;> simp [Desire, h]
  · refine ⟨⟨namePrefix stagingTask.Task, ""⟩, ?_, hprefix stagingTask.Task⟩
    cases h : client.Create ⟨namePrefix stagingTask.Task, ""⟩ <;> simp [DesireStaging, h]

theorem Desire_generate_name_witness :
    (∃ job, (Desire (testClient [] none) testTask).1 = [JobCall.Create job] ∧
      job.GenerateName = "my-app-my-space-") ∧
    (∃ job, (DesireStaging (testClient [] none) ⟨namelessTask, "", "", ""⟩).1 =
        [JobCall.Create job] ∧
      job.GenerateName = "task-123-") :=
  Desire_generate_name (testClient [] none) testTask ⟨namelessTask, "", "", ""⟩

end Desirer

end Eirini
